import Mathlib

/-!
Verification of the lexical scanner of `main.py`.

The scanner is embedded shallowly: the Python `Scanner` class becomes a state
record `St` (token list, `start`/`current` cursor offsets, `line` counter,
diagnostic list) threaded through pure functions, with the immutable `source`
string passed separately as a `List Char`.  The `while` loops of the Python
code become fueled structural recursions; every call site supplies
`src.length` fuel, which is proved sufficient, so the functions compute by
kernel reduction.  Python's `float` on the scanner's numeric lexemes is
modelled as an exact decimal rational.
-/

/-- `TokenType` enumeration from `main.py`. -/
inductive TokenType where
  | LEFT_PAREN | RIGHT_PAREN | LEFT_BRACE | RIGHT_BRACE | STAR | DOT | COMMA
  | PLUS | MINUS | SEMICOLON
  | EQUAL | EQUAL_EQUAL | BANG | BANG_EQUAL | LESS | LESS_EQUAL
  | GREATER | GREATER_EQUAL | SLASH
  | STRING | NUMBER | IDENTIFIER
  | AND | CLASS | ELSE | FALSE | FOR | FUN | IF | NIL | OR | PRINT
  | RETURN | SUPER | THIS | TRUE | VAR | WHILE
  | EOF
deriving DecidableEq, Repr

/-- The `literal` payload of a token: a number for NUMBER tokens, the raw inner
text for STRING tokens. -/
inductive Literal where
  | num (val : ℚ)
  | str (chars : List Char)
deriving DecidableEq, Repr

/-- The `Token` value class of `main.py`. -/
structure Token where
  type : TokenType
  lexeme : List Char
  literal : Option Literal
  line : Nat
deriving DecidableEq, Repr

/-- The mutable fields of the Python `Scanner` object (minus the immutable
`source`, which is passed separately). -/
structure St where
  tokens : List Token
  start : Nat
  current : Nat
  line : Nat
  errors : List String
deriving DecidableEq, Repr

namespace Scanner

/-- `Scanner.is_at_end`. -/
def is_at_end (src : List Char) (s : St) : Bool :=
  s.current ≥ src.length

/-- `Scanner.peek`: the character at `current`, or NUL at end of source. -/
def peek (src : List Char) (s : St) : Char :=
  if is_at_end src s then '\x00' else src.getD s.current '\x00'

/-- `Scanner.peek_next`. -/
def peek_next (src : List Char) (s : St) : Char :=
  if s.current + 1 ≥ src.length then '\x00' else src.getD (s.current + 1) '\x00'

/-- `Scanner.match`: conditionally consume one expected character.  Returns the
Python method's boolean result together with the updated state. -/
def matchChar (src : List Char) (expected : Char) (s : St) : Bool × St :=
  if is_at_end src s then (false, s)
  else if src.getD s.current '\x00' ≠ expected then (false, s)
  else (true, {s with current := s.current + 1})

/-- `Scanner.add_token`: append a token whose lexeme is `source[start:current]`,
tagged with the current line. -/
def add_token (src : List Char) (type : TokenType) (literal : Option Literal)
    (s : St) : St :=
  {s with tokens := s.tokens ++
    [{ type := type, lexeme := (src.drop s.start).take (s.current - s.start),
       literal := literal, line := s.line }]}

/-- `Scanner.error`: append the diagnostic `"[line {line}] Error: {msg}"`. -/
def error (msg : String) (s : St) : St :=
  {s with errors := s.errors ++ ["[line " ++ toString s.line ++ "] Error: " ++ msg]}

/-- `Scanner.is_digit`: `char >= "0" and char <= "9"`. -/
def is_digit (c : Char) : Bool :=
  decide ('0' ≤ c ∧ c ≤ '9')

/-- `Scanner.is_alpha`: ASCII letter or underscore. -/
def is_alpha (c : Char) : Bool :=
  decide (('a' ≤ c ∧ c ≤ 'z') ∨ ('A' ≤ c ∧ c ≤ 'Z') ∨ c = '_')

/-- `Scanner.is_alpha_numeric`. -/
def is_alpha_numeric (c : Char) : Bool :=
  is_alpha c || is_digit c

/-- Fueled form of the scanner's simple forward loops
(`while self.peek() != "\n" and not self.is_at_end()` in the comment branch,
`while self.is_digit(self.peek())` in `number`,
`while self.is_alpha_numeric(self.peek())` in `identifier`):
advance while the predicate holds of the current character.  The explicit
bounds conjunct is what Python's `not self.is_at_end()` checks in the comment
loop; in the digit and alphanumeric loops it is implied, because `peek`
returns NUL at end of source and the predicates reject NUL. -/
def skipWhile (src : List Char) (p : Char → Bool) : Nat → St → St
  | 0, s => s
  | fuel + 1, s =>
    if s.current < src.length ∧ p (src.getD s.current '\x00') then
      skipWhile src p fuel {s with current := s.current + 1}
    else s

/-- Fueled form of the `while` loop of `Scanner.string`: advance until the
closing quote or end of source, incrementing `line` at each newline. -/
def stringLoop (src : List Char) : Nat → St → St
  | 0, s => s
  | fuel + 1, s =>
    if s.current < src.length ∧ src.getD s.current '\x00' ≠ '"' then
      stringLoop src fuel
        {s with line := if src.getD s.current '\x00' = '\n' then s.line + 1 else s.line,
                current := s.current + 1}
    else s

/-- `Scanner.string`: scan the rest of a string literal (the opening quote has
already been consumed). -/
def string (src : List Char) (s : St) : St :=
  let s1 := stringLoop src src.length s
  if is_at_end src s1 then
    {s1 with errors := s1.errors ++
      ["[line " ++ toString s1.line ++ "] Error: Unterminated string."]}
  else
    let s2 := {s1 with current := s1.current + 1}
    let value := (src.drop (s2.start + 1)).take (s2.current - 1 - (s2.start + 1))
    add_token src TokenType.STRING (some (Literal.str value)) s2

/-- Decimal value of a digit run. -/
def digitsToNat (ds : List Char) : Nat :=
  ds.foldl (fun a c => a * 10 + (c.toNat - '0'.toNat)) 0

/-- Models Python's built-in `float` on the lexemes `Scanner.number` produces
(one or more digits, optionally followed by `.` and one or more digits), as the
exact decimal rational; IEEE-754 rounding is abstracted away. -/
def pyFloat (cs : List Char) : ℚ :=
  let ip := cs.takeWhile is_digit
  match cs.drop ip.length with
  | '.' :: fp => (digitsToNat ip : ℚ) + (digitsToNat fp : ℚ) / ((10 : ℚ) ^ fp.length)
  | _ => (digitsToNat ip : ℚ)

/-- `Scanner.number`: scan the rest of a number literal (the first digit has
already been consumed). -/
def number (src : List Char) (s : St) : St :=
  let s1 := skipWhile src is_digit src.length s
  let s2 := if peek src s1 = '.' ∧ is_digit (peek_next src s1) then
      {s1 with current := s1.current + 1}
    else s1
  let s3 := skipWhile src is_digit src.length s2
  add_token src TokenType.NUMBER
    (some (Literal.num (pyFloat ((src.drop s3.start).take (s3.current - s3.start))))) s3

/-- `Scanner.identifier_type`: the fixed reserved-word table. -/
def identifier_type (text : List Char) : TokenType :=
  if text = "and".toList then .AND
  else if text = "class".toList then .CLASS
  else if text = "else".toList then .ELSE
  else if text = "false".toList then .FALSE
  else if text = "for".toList then .FOR
  else if text = "fun".toList then .FUN
  else if text = "if".toList then .IF
  else if text = "nil".toList then .NIL
  else if text = "or".toList then .OR
  else if text = "print".toList then .PRINT
  else if text = "return".toList then .RETURN
  else if text = "super".toList then .SUPER
  else if text = "this".toList then .THIS
  else if text = "true".toList then .TRUE
  else if text = "var".toList then .VAR
  else if text = "while".toList then .WHILE
  else .IDENTIFIER

/-- The keys of the reserved-word table, for stating claims about it. -/
def reserved_words : List (List Char) :=
  ["and", "class", "else", "false", "for", "fun", "if", "nil", "or", "print",
   "return", "super", "this", "true", "var", "while"].map String.toList

/-- `Scanner.identifier`: scan the rest of an identifier (the first character
has already been consumed), then resolve reserved words. -/
def identifier (src : List Char) (s : St) : St :=
  let s1 := skipWhile src is_alpha_numeric src.length s
  let text := (src.drop s1.start).take (s1.current - s1.start)
  add_token src (identifier_type text) none s1

/-- `Scanner.scan_token`: consume one character and dispatch on it. -/
def scan_token (src : List Char) (s0 : St) : St :=
  let c := src.getD s0.current '\x00'
  let s : St := {s0 with current := s0.current + 1}
  if c = '(' then add_token src .LEFT_PAREN none s
  else if c = ')' then add_token src .RIGHT_PAREN none s
  else if c = '{' then add_token src .LEFT_BRACE none s
  else if c = '}' then add_token src .RIGHT_BRACE none s
  else if c = '*' then add_token src .STAR none s
  else if c = '.' then add_token src .DOT none s
  else if c = ',' then add_token src .COMMA none s
  else if c = '+' then add_token src .PLUS none s
  else if c = '-' then add_token src .MINUS none s
  else if c = ';' then add_token src .SEMICOLON none s
  else if c = '!' then
    let m := matchChar src '=' s
    if m.1 then add_token src .BANG_EQUAL none m.2 else add_token src .BANG none m.2
  else if c = '=' then
    let m := matchChar src '=' s
    if m.1 then add_token src .EQUAL_EQUAL none m.2 else add_token src .EQUAL none m.2
  else if c = '<' then
    let m := matchChar src '=' s
    if m.1 then add_token src .LESS_EQUAL none m.2 else add_token src .LESS none m.2
  else if c = '>' then
    let m := matchChar src '=' s
    if m.1 then add_token src .GREATER_EQUAL none m.2 else add_token src .GREATER none m.2
  else if c = '/' then
    let m := matchChar src '/' s
    if m.1 then skipWhile src (fun ch => ch != '\n') src.length m.2
    else add_token src .SLASH none m.2
  else if c = ' ' ∨ c = '\r' ∨ c = '\t' then s
  else if c = '\n' then {s with line := s.line + 1}
  else if c = '"' then string src s
  else if is_digit c then number src s
  else if is_alpha_numeric c then identifier src s
  else error ("Unexpected character: " ++ String.singleton c) s

/-- Fueled form of the `while not self.is_at_end()` loop of
`Scanner.scan_tokens`. -/
def scanLoop (src : List Char) : Nat → St → St
  | 0, s => s
  | fuel + 1, s =>
    if is_at_end src s then s
    else scanLoop src fuel (scan_token src {s with start := s.current})

/-- The initial scanner state of `Scanner.__init__`. -/
def initSt : St :=
  { tokens := [], start := 0, current := 0, line := 1, errors := [] }

/-- `Scanner.scan_tokens`: run the dispatch loop over the whole source, then
append the EOF token.  `src.length` fuel is sufficient because every
`scan_token` call consumes at least one character (proved below). -/
def scan_tokens (src : List Char) : List Token × List String :=
  let s := scanLoop src src.length initSt
  (s.tokens ++ [{ type := .EOF, lexeme := [], literal := none, line := s.line }], s.errors)

/-- Scanning entry point on strings. -/
def scan (source : String) : List Token × List String :=
  scan_tokens source.toList

/-- The maximal run of characters satisfying `p` starting at offset `i`. -/
def runFrom (src : List Char) (p : Char → Bool) (i : Nat) : List Char :=
  (src.drop i).takeWhile p

/-- 1-based line number of the position `i` in `src`: one more than the number
of newline characters strictly before `i`. -/
def lineAt (src : List Char) (i : Nat) : Nat :=
  1 + (src.take i).count '\n'

/-- A token is well-placed in `src`: its lexeme is the slice of `src` ending at
some offset `e`, and its reported line is the 1-based line number of `e`. -/
def TokOk (src : List Char) (t : Token) : Prop :=
  ∃ e, t.lexeme.length ≤ e ∧ e ≤ src.length ∧
    t.lexeme = (src.take e).drop (e - t.lexeme.length) ∧
    t.line = lineAt src e

/-- What one `scan_token` step guarantees, relative to the state it was
entered with. -/
def StepOut (src : List Char) (s s' : St) : Prop :=
  s.current < s'.current ∧ s'.current ≤ src.length ∧
  s'.line = lineAt src s'.current ∧ s.line ≤ s'.line ∧ s'.start = s.start ∧
  ∃ ts, s'.tokens = s.tokens ++ ts ∧
    ∀ t ∈ ts, TokOk src t ∧ t.type ≠ TokenType.EOF ∧ t.line = s'.line

/-- The loop invariant of `scan_tokens`. -/
def Inv (src : List Char) (s : St) : Prop :=
  s.current ≤ src.length ∧ s.line = lineAt src s.current ∧
  (∀ t ∈ s.tokens, TokOk src t ∧ t.type ≠ TokenType.EOF ∧ t.line ≤ s.line) ∧
  s.tokens.Pairwise (fun a b => a.line ≤ b.line)

/-- Modelled from the spec: the lexeme of a number literal starting at the
head of `cs` is one or more leading digits, extended by `.` and the following
digit run exactly when the `.` is immediately followed by at least one digit
(`getD` with a NUL default stands for "no such character" past the end). -/
def numberLexemeSpec (cs : List Char) : List Char :=
  let ip := cs.takeWhile is_digit
  if cs.getD ip.length '\x00' = '.' ∧ is_digit (cs.getD (ip.length + 1) '\x00') = true then
    ip ++ '.' :: (cs.drop (ip.length + 1)).takeWhile is_digit
  else ip

/-! ### Helper lemmas about character runs -/

theorem takeWhile_length_le (p : Char → Bool) (l : List Char) :
    (l.takeWhile p).length ≤ l.length := by
  induction l with
  | nil => simp
  | cons a l ih =>
    rw [List.takeWhile_cons]
    split
    · simpa using ih
    · simp

theorem takeWhile_eq_take (p : Char → Bool) (l : List Char) :
    l.takeWhile p = l.take (l.takeWhile p).length := by
  induction l with
  | nil => simp
  | cons a l ih =>
    rw [List.takeWhile_cons]
    split
    · rw [List.length_cons, List.take_succ_cons]
      exact congrArg _ ih
    · simp

theorem takeWhile_stop (p : Char → Bool) (l : List Char) :
    (l.takeWhile p).length < l.length →
    p (l.getD (l.takeWhile p).length '\x00') = false := by
  induction l with
  | nil => intro h; simp at h
  | cons a l ih =>
    intro h
    rw [List.takeWhile_cons] at h ⊢
    by_cases hp : p a = true
    · rw [if_pos hp] at h ⊢
      simp only [List.length_cons] at h ⊢
      rw [List.getD_cons_succ]
      exact ih (by omega)
    · rw [if_neg hp] at h ⊢
      simp only [List.length_nil, List.getD_cons_zero]
      simpa using hp

theorem runFrom_length_le (src : List Char) (p : Char → Bool) (i : Nat) :
    (runFrom src p i).length ≤ src.length - i := by
  have := takeWhile_length_le p (src.drop i)
  rwa [List.length_drop] at this

theorem runFrom_take (src : List Char) (p : Char → Bool) (i : Nat) :
    (src.drop i).take (runFrom src p i).length = runFrom src p i :=
  (takeWhile_eq_take p (src.drop i)).symm

theorem runFrom_cons (src : List Char) (p : Char → Bool) (i : Nat)
    (hi : i < src.length) (hp : p (src.getD i '\x00') = true) :
    runFrom src p i = src.getD i '\x00' :: runFrom src p (i + 1) := by
  rw [runFrom, runFrom, List.getD_eq_getElem _ _ hi, List.drop_eq_getElem_cons hi,
    List.takeWhile_cons, if_pos (by rwa [List.getD_eq_getElem _ _ hi] at hp)]

theorem runFrom_nil (src : List Char) (p : Char → Bool) (i : Nat)
    (h : src.length ≤ i ∨ p (src.getD i '\x00') = false) :
    runFrom src p i = [] := by
  rcases h with h | h
  · rw [runFrom, List.drop_eq_nil_of_le h, List.takeWhile_nil]
  · rcases Nat.lt_or_ge i src.length with hi | hi
    · have h' : ¬ p src[i] = true := by
        rw [List.getD_eq_getElem _ _ hi] at h
        simp [h]
      rw [runFrom, List.drop_eq_getElem_cons hi, List.takeWhile_cons, if_neg h']
    · rw [runFrom, List.drop_eq_nil_of_le hi, List.takeWhile_nil]

theorem runFrom_stop (src : List Char) (p : Char → Bool) (i : Nat)
    (h : i + (runFrom src p i).length < src.length) :
    p (src.getD (i + (runFrom src p i).length) '\x00') = false := by
  have hlen : ((src.drop i).takeWhile p).length < (src.drop i).length := by
    rw [List.length_drop]
    have h' := h
    rw [runFrom] at h'
    omega
  have hstop := takeWhile_stop p (src.drop i) hlen
  have hlt : i < src.length := by omega
  have : (src.drop i).getD ((src.drop i).takeWhile p).length '\x00'
      = src.getD (i + ((src.drop i).takeWhile p).length) '\x00' := by
    have h1 : ((src.drop i).takeWhile p).length < (src.drop i).length := hlen
    rw [List.getD_eq_getElem _ _ h1, List.getElem_drop,
      List.getD_eq_getElem _ _ (by rw [List.length_drop] at h1; omega)]
  rw [runFrom]
  rw [this] at hstop
  exact hstop

theorem count_nl_runFrom (src : List Char) (p : Char → Bool) (i : Nat)
    (hp : p '\n' = false) : (runFrom src p i).count '\n' = 0 := by
  rw [List.count_eq_zero]
  intro hmem
  have := List.mem_takeWhile_imp hmem
  rw [this] at hp
  exact Bool.noConfusion hp

theorem count_cons_nl (c : Char) (w : List Char) :
    (c :: w).count '\n' = w.count '\n' + (if c = '\n' then 1 else 0) := by
  rw [List.count_cons]
  by_cases h : c = '\n'
  · simp [h]
  · simp [h]

/-! ### Closed forms of the fueled loops -/

theorem skipWhile_eq (src : List Char) (p : Char → Bool) :
    ∀ (fuel : Nat) (s : St), (runFrom src p s.current).length ≤ fuel →
    skipWhile src p fuel s = {s with current := s.current + (runFrom src p s.current).length} := by
  intro fuel
  induction fuel with
  | zero =>
    intro s h
    rw [Nat.le_zero] at h
    simp [skipWhile, h]
  | succ n ih =>
    intro s h
    rw [skipWhile]
    by_cases hc : s.current < src.length ∧ p (src.getD s.current '\x00') = true
    · rw [if_pos hc]
      have hrun := runFrom_cons src p s.current hc.1 hc.2
      have hlen : (runFrom src p (s.current + 1)).length ≤ n := by
        rw [hrun, List.length_cons] at h
        omega
      rw [ih {s with current := s.current + 1} (by simpa using hlen)]
      obtain ⟨tk, st, cur, ln, er⟩ := s
      simp only [hrun, List.length_cons]
      rw [St.mk.injEq]
      refine ⟨rfl, rfl, by omega, rfl, rfl⟩
    · rw [if_neg hc]
      have hnil : runFrom src p s.current = [] := by
        rcases Nat.lt_or_ge s.current src.length with hlt | hge
        · refine runFrom_nil src p s.current (Or.inr ?_)
          rcases Bool.eq_false_or_eq_true (p (src.getD s.current '\x00')) with ht | hf
          · exact absurd ⟨hlt, ht⟩ hc
          · exact hf
        · exact runFrom_nil src p s.current (Or.inl hge)
      rw [hnil]
      simp

theorem skipWhile_run (src : List Char) (p : Char → Bool) (s : St) :
    skipWhile src p src.length s
      = {s with current := s.current + (runFrom src p s.current).length} :=
  skipWhile_eq src p src.length s
    (le_trans (runFrom_length_le src p s.current) (Nat.sub_le _ _))

theorem stringLoop_eq (src : List Char) :
    ∀ (fuel : Nat) (s : St),
    (runFrom src (fun c => c != '"') s.current).length ≤ fuel →
    stringLoop src fuel s =
      {s with current := s.current + (runFrom src (fun c => c != '"') s.current).length,
              line := s.line + (runFrom src (fun c => c != '"') s.current).count '\n'} := by
  intro fuel
  induction fuel with
  | zero =>
    intro s h
    rw [Nat.le_zero] at h
    have hnil : runFrom src (fun c => c != '"') s.current = [] :=
      List.length_eq_zero.mp h
    simp [stringLoop, hnil]
  | succ n ih =>
    intro s h
    rw [stringLoop]
    by_cases hc : s.current < src.length ∧ src.getD s.current '\x00' ≠ '"'
    · rw [if_pos hc]
      have hrun := runFrom_cons src (fun c => c != '"') s.current hc.1
        (by show (src.getD s.current '\x00' != '"') = true; rw [bne_iff_ne]; exact hc.2)
      have hlen : (runFrom src (fun c => c != '"') (s.current + 1)).length ≤ n := by
        rw [hrun, List.length_cons] at h
        omega
      rw [ih _ (by simpa using hlen)]
      obtain ⟨tk, st, cur, ln, er⟩ := s
      simp only at hc hrun hlen ⊢
      have hcount : (runFrom src (fun c => c != '"') cur).count '\n'
          = (runFrom src (fun c => c != '"') (cur + 1)).count '\n'
            + (if src.getD cur '\x00' = '\n' then 1 else 0) := by
        rw [hrun, count_cons_nl]
      rw [St.mk.injEq]
      refine ⟨rfl, rfl, by rw [hrun, List.length_cons]; omega, ?_, rfl⟩
      rw [hcount]
      by_cases hnl : src.getD cur '\x00' = '\n'
      · rw [if_pos hnl, if_pos hnl]
        omega
      · rw [if_neg hnl, if_neg hnl]
        omega
    · rw [if_neg hc]
      have hnil : runFrom src (fun c => c != '"') s.current = [] := by
        rcases Nat.lt_or_ge s.current src.length with hlt | hge
        · refine runFrom_nil src _ s.current (Or.inr ?_)
          by_cases hq : src.getD s.current '\x00' = '"'
          · show (src.getD s.current '\x00' != '"') = false
            rw [hq]
            rfl
          · exact absurd ⟨hlt, hq⟩ hc
        · exact runFrom_nil src _ s.current (Or.inl hge)
      rw [hnil]
      simp

theorem stringLoop_run (src : List Char) (s : St) :
    stringLoop src src.length s =
      {s with current := s.current + (runFrom src (fun c => c != '"') s.current).length,
              line := s.line + (runFrom src (fun c => c != '"') s.current).count '\n'} :=
  stringLoop_eq src src.length s
    (le_trans (runFrom_length_le src _ s.current) (Nat.sub_le _ _))

/-! ### Lookahead helpers -/

theorem is_at_end_iff (src : List Char) (s : St) :
    is_at_end src s = true ↔ src.length ≤ s.current := by
  rw [is_at_end]
  constructor
  · exact fun h => of_decide_eq_true h
  · exact fun h => decide_eq_true h

theorem peek_getD (src : List Char) (s : St) :
    peek src s = src.getD s.current '\x00' := by
  rw [peek]
  by_cases h : is_at_end src s = true
  · rw [if_pos h]
    rw [is_at_end_iff] at h
    rw [List.getD_eq_default _ _ h]
  · rw [if_neg h]

theorem peek_next_getD (src : List Char) (s : St) :
    peek_next src s = src.getD (s.current + 1) '\x00' := by
  rw [peek_next]
  by_cases h : s.current + 1 ≥ src.length
  · rw [if_pos h, List.getD_eq_default _ _ h]
  · rw [if_neg h]

theorem getD_lt_of_ne_nul (src : List Char) (i : Nat) (c : Char)
    (hc : c ≠ '\x00') (h : src.getD i '\x00' = c) : i < src.length := by
  by_contra hge
  rw [List.getD_eq_default _ _ (by omega)] at h
  exact hc h.symm

theorem headD_drop (src : List Char) (i : Nat) :
    (src.drop i).headD '\x00' = src.getD i '\x00' := by
  rcases Nat.lt_or_ge i src.length with hi | hi
  · rw [List.drop_eq_getElem_cons hi, List.getD_eq_getElem _ _ hi]
    rfl
  · rw [List.drop_eq_nil_of_le hi, List.getD_eq_default _ _ hi]
    rfl

theorem matchChar_eq (src : List Char) (expected : Char) (s : St) :
    matchChar src expected s =
      if s.current < src.length ∧ src.getD s.current '\x00' = expected then
        (true, {s with current := s.current + 1})
      else (false, s) := by
  rw [matchChar]
  by_cases h1 : s.current < src.length
  · have hae : ¬ (is_at_end src s = true) := by
      rw [is_at_end_iff]
      omega
    rw [if_neg hae]
    by_cases h2 : src.getD s.current '\x00' = expected
    · rw [if_neg (not_not.mpr h2), if_pos ⟨h1, h2⟩]
    · rw [if_pos h2, if_neg (fun hcon => h2 hcon.2)]
  · have hae : is_at_end src s = true := by
      rw [is_at_end_iff]
      omega
    rw [if_pos hae, if_neg (fun hcon => h1 hcon.1)]

/-! ### Line-number accounting -/

theorem lineAt_zero (src : List Char) : lineAt src 0 = 1 := by
  simp [lineAt]

theorem lineAt_add (src : List Char) (i k : Nat) :
    lineAt src (i + k) = lineAt src i + ((src.drop i).take k).count '\n' := by
  rw [lineAt, lineAt, List.take_add, List.count_append]
  omega

theorem take_one_at (src : List Char) (i : Nat) (hi : i < src.length) :
    (src.drop i).take 1 = [src.getD i '\x00'] := by
  rw [List.drop_eq_getElem_cons hi, List.getD_eq_getElem _ _ hi]
  rfl

theorem count_take_one (src : List Char) (i : Nat) (hi : i < src.length)
    (h : src.getD i '\x00' ≠ '\n') : ((src.drop i).take 1).count '\n' = 0 := by
  rw [take_one_at src i hi, count_cons_nl, if_neg h, List.count_nil]

theorem count_take_one_nl (src : List Char) (i : Nat) (hi : i < src.length)
    (h : src.getD i '\x00' = '\n') : ((src.drop i).take 1).count '\n' = 1 := by
  rw [take_one_at src i hi, count_cons_nl, if_pos h, List.count_nil]

theorem count_take_split (src : List Char) (i a b : Nat) :
    ((src.drop i).take (a + b)).count '\n'
      = ((src.drop i).take a).count '\n' + ((src.drop (i + a)).take b).count '\n' := by
  rw [List.take_add, List.count_append, List.drop_drop]

/-! ### Building well-placed tokens -/

theorem TokOk_slice (src : List Char) (ty : TokenType) (lit : Option Literal)
    (a b ln : Nat) (hab : a ≤ b) (hb : b ≤ src.length) (hline : ln = lineAt src b) :
    TokOk src { type := ty, lexeme := (src.drop a).take (b - a), literal := lit, line := ln } := by
  have hlen : ((src.drop a).take (b - a)).length = b - a := by
    rw [List.length_take, List.length_drop]
    omega
  refine ⟨b, ?_, hb, ?_, hline⟩
  · show ((src.drop a).take (b - a)).length ≤ b
    rw [hlen]
    omega
  · show (src.drop a).take (b - a)
      = (src.take b).drop (b - ((src.drop a).take (b - a)).length)
    rw [hlen]
    have hba : b - (b - a) = a := by omega
    rw [hba, List.drop_take]

theorem stepOut_skip (src : List Char) (s s' : St)
    (h1 : s.current < s'.current) (h2 : s'.current ≤ src.length)
    (h3 : s'.line = lineAt src s'.current) (h4 : s.line ≤ s'.line)
    (h5 : s'.start = s.start) (h6 : s'.tokens = s.tokens) :
    StepOut src s s' :=
  ⟨h1, h2, h3, h4, h5, [], by rw [h6, List.append_nil], by simp⟩

theorem stepOut_add_token (src : List Char) (tk : List Token) (cur b ln : Nat)
    (er : List String) (ty : TokenType) (lit : Option Literal)
    (hty : ty ≠ TokenType.EOF) (hb : cur < b) (hble : b ≤ src.length)
    (hline : ln = lineAt src cur)
    (hnl : ((src.drop cur).take (b - cur)).count '\n' = 0) :
    StepOut src ⟨tk, cur, cur, ln, er⟩
      (add_token src ty lit ⟨tk, cur, b, ln, er⟩) := by
  have hlb : ln = lineAt src b := by
    have hadd := lineAt_add src cur (b - cur)
    rw [hnl] at hadd
    have hcb : cur + (b - cur) = b := by omega
    rw [hcb] at hadd
    omega
  unfold StepOut add_token
  dsimp only
  refine ⟨hb, hble, hlb, le_refl ln, rfl,
    [{ type := ty, lexeme := (src.drop cur).take (b - cur), literal := lit, line := ln }],
    rfl, ?_⟩
  intro t ht
  rw [List.mem_singleton] at ht
  subst ht
  exact ⟨TokOk_slice src ty lit cur b ln (by omega) hble hlb, hty, rfl⟩

theorem stepOut_one (src : List Char) (tk : List Token) (cur ln : Nat)
    (er : List String) (ty : TokenType) (lit : Option Literal)
    (hty : ty ≠ TokenType.EOF) (hcur : cur < src.length) (hline : ln = lineAt src cur)
    (hnl : src.getD cur '\x00' ≠ '\n') :
    StepOut src ⟨tk, cur, cur, ln, er⟩ (add_token src ty lit ⟨tk, cur, cur + 1, ln, er⟩) :=
  stepOut_add_token src tk cur (cur + 1) ln er ty lit hty (by omega) (by omega) hline
    (by
      have h1 : cur + 1 - cur = 1 := by omega
      rw [h1]
      exact count_take_one src cur hcur hnl)

/-! ### Character-class facts -/

theorem is_digit_ne_nl (c : Char) (h : is_digit c = true) : c ≠ '\n' := by
  intro hc
  rw [hc] at h
  exact absurd h (by decide)

theorem is_alpha_numeric_ne_nl (c : Char) (h : is_alpha_numeric c = true) : c ≠ '\n' := by
  intro hc
  rw [hc] at h
  exact absurd h (by decide)

theorem identifier_type_classify (text : List Char) :
    identifier_type text ≠ TokenType.EOF ∧
    (identifier_type text ≠ TokenType.IDENTIFIER → text ∈ reserved_words) := by
  unfold identifier_type
  by_cases h1 : text = "and".toList
  · rw [if_pos h1]
    exact ⟨by decide, fun _ => by rw [h1]; decide⟩
  · rw [if_neg h1]
    by_cases h2 : text = "class".toList
    · rw [if_pos h2]
      exact ⟨by decide, fun _ => by rw [h2]; decide⟩
    · rw [if_neg h2]
      by_cases h3 : text = "else".toList
      · rw [if_pos h3]
        exact ⟨by decide, fun _ => by rw [h3]; decide⟩
      · rw [if_neg h3]
        by_cases h4 : text = "false".toList
        · rw [if_pos h4]
          exact ⟨by decide, fun _ => by rw [h4]; decide⟩
        · rw [if_neg h4]
          by_cases h5 : text = "for".toList
          · rw [if_pos h5]
            exact ⟨by decide, fun _ => by rw [h5]; decide⟩
          · rw [if_neg h5]
            by_cases h6 : text = "fun".toList
            · rw [if_pos h6]
              exact ⟨by decide, fun _ => by rw [h6]; decide⟩
            · rw [if_neg h6]
              by_cases h7 : text = "if".toList
              · rw [if_pos h7]
                exact ⟨by decide, fun _ => by rw [h7]; decide⟩
              · rw [if_neg h7]
                by_cases h8 : text = "nil".toList
                · rw [if_pos h8]
                  exact ⟨by decide, fun _ => by rw [h8]; decide⟩
                · rw [if_neg h8]
                  by_cases h9 : text = "or".toList
                  · rw [if_pos h9]
                    exact ⟨by decide, fun _ => by rw [h9]; decide⟩
                  · rw [if_neg h9]
                    by_cases h10 : text = "print".toList
                    · rw [if_pos h10]
                      exact ⟨by decide, fun _ => by rw [h10]; decide⟩
                    · rw [if_neg h10]
                      by_cases h11 : text = "return".toList
                      · rw [if_pos h11]
                        exact ⟨by decide, fun _ => by rw [h11]; decide⟩
                      · rw [if_neg h11]
                        by_cases h12 : text = "super".toList
                        · rw [if_pos h12]
                          exact ⟨by decide, fun _ => by rw [h12]; decide⟩
                        · rw [if_neg h12]
                          by_cases h13 : text = "this".toList
                          · rw [if_pos h13]
                            exact ⟨by decide, fun _ => by rw [h13]; decide⟩
                          · rw [if_neg h13]
                            by_cases h14 : text = "true".toList
                            · rw [if_pos h14]
                              exact ⟨by decide, fun _ => by rw [h14]; decide⟩
                            · rw [if_neg h14]
                              by_cases h15 : text = "var".toList
                              · rw [if_pos h15]
                                exact ⟨by decide, fun _ => by rw [h15]; decide⟩
                              · rw [if_neg h15]
                                by_cases h16 : text = "while".toList
                                · rw [if_pos h16]
                                  exact ⟨by decide, fun _ => by rw [h16]; decide⟩
                                · rw [if_neg h16]
                                  exact ⟨by decide, fun hcon => absurd rfl hcon⟩

theorem identifier_type_ne_eof (text : List Char) :
    identifier_type text ≠ TokenType.EOF :=
  (identifier_type_classify text).1

/-! ### Characterizations of the literal sub-scanners -/

theorem string_unterminated (src : List Char) (s : St)
    (h : src.length ≤ s.current + (runFrom src (fun c => c != '"') s.current).length) :
    Scanner.string src s =
      {s with current := s.current + (runFrom src (fun c => c != '"') s.current).length,
              line := s.line + (runFrom src (fun c => c != '"') s.current).count '\n',
              errors := s.errors ++
                ["[line " ++ toString (s.line + (runFrom src (fun c => c != '"') s.current).count '\n')
                  ++ "] Error: Unterminated string."]} := by
  obtain ⟨tk, st, cur, ln, er⟩ := s
  dsimp only at h ⊢
  rw [Scanner.string, stringLoop_run]
  dsimp only
  split
  · rfl
  · rename_i hcond
    rw [is_at_end_iff] at hcond
    dsimp only at hcond
    exact absurd h hcond

theorem string_closed (src : List Char) (s : St)
    (h : s.current + (runFrom src (fun c => c != '"') s.current).length < src.length) :
    Scanner.string src s =
      add_token src TokenType.STRING
        (some (Literal.str ((src.drop (s.start + 1)).take
          (s.current + (runFrom src (fun c => c != '"') s.current).length - (s.start + 1)))))
        {s with current := s.current + (runFrom src (fun c => c != '"') s.current).length + 1,
                line := s.line + (runFrom src (fun c => c != '"') s.current).count '\n'} := by
  obtain ⟨tk, st, cur, ln, er⟩ := s
  dsimp only at h ⊢
  rw [Scanner.string, stringLoop_run]
  dsimp only
  split
  · rename_i hcond
    rw [is_at_end_iff] at hcond
    dsimp only at hcond
    omega
  · have harith : cur + (runFrom src (fun c => c != '"') cur).length + 1 - 1
        = cur + (runFrom src (fun c => c != '"') cur).length := by omega
    rw [harith]

theorem getD_drop (src : List Char) (i k : Nat) :
    (src.drop i).getD k '\x00' = src.getD (i + k) '\x00' := by
  rcases Nat.lt_or_ge (i + k) src.length with h | h
  · rw [List.getD_eq_getElem _ _ (by rw [List.length_drop]; omega), List.getElem_drop,
      List.getD_eq_getElem _ _ h]
  · rw [List.getD_eq_default _ _ (by rw [List.length_drop]; omega),
      List.getD_eq_default _ _ h]

theorem numberLexemeSpec_dot (src : List Char) (st : Nat) (hst : st < src.length)
    (hd : is_digit (src.getD st '\x00') = true)
    (hdot : src.getD (st + 1 + (runFrom src is_digit (st + 1)).length) '\x00' = '.')
    (hdig2 : is_digit (src.getD (st + 1 + (runFrom src is_digit (st + 1)).length + 1) '\x00') = true) :
    numberLexemeSpec (src.drop st)
      = runFrom src is_digit st
        ++ '.' :: runFrom src is_digit (st + 1 + (runFrom src is_digit (st + 1)).length + 1) := by
  have hip := runFrom_cons src is_digit st hst hd
  have hiplen : ((src.drop st).takeWhile is_digit).length
      = 1 + (runFrom src is_digit (st + 1)).length := by
    show (runFrom src is_digit st).length = _
    rw [hip, List.length_cons]
    omega
  unfold numberLexemeSpec
  dsimp only
  rw [hiplen, getD_drop, getD_drop]
  have e1 : st + (1 + (runFrom src is_digit (st + 1)).length)
      = st + 1 + (runFrom src is_digit (st + 1)).length := by omega
  have e2 : st + (1 + (runFrom src is_digit (st + 1)).length + 1)
      = st + 1 + (runFrom src is_digit (st + 1)).length + 1 := by omega
  rw [e1, e2, if_pos ⟨hdot, hdig2⟩, List.drop_drop, e2]
  rfl

theorem numberLexemeSpec_nodot (src : List Char) (st : Nat) (hst : st < src.length)
    (hd : is_digit (src.getD st '\x00') = true)
    (hno : ¬ (src.getD (st + 1 + (runFrom src is_digit (st + 1)).length) '\x00' = '.'
        ∧ is_digit (src.getD (st + 1 + (runFrom src is_digit (st + 1)).length + 1) '\x00') = true)) :
    numberLexemeSpec (src.drop st) = runFrom src is_digit st := by
  have hip := runFrom_cons src is_digit st hst hd
  have hiplen : ((src.drop st).takeWhile is_digit).length
      = 1 + (runFrom src is_digit (st + 1)).length := by
    show (runFrom src is_digit st).length = _
    rw [hip, List.length_cons]
    omega
  unfold numberLexemeSpec
  dsimp only
  rw [hiplen, getD_drop, getD_drop]
  have e1 : st + (1 + (runFrom src is_digit (st + 1)).length)
      = st + 1 + (runFrom src is_digit (st + 1)).length := by omega
  have e2 : st + (1 + (runFrom src is_digit (st + 1)).length + 1)
      = st + 1 + (runFrom src is_digit (st + 1)).length + 1 := by omega
  rw [e1, e2, if_neg hno]
  rfl

theorem identifier_run (src : List Char) (tk : List Token) (st ln : Nat) (er : List String)
    (ha : is_alpha_numeric (src.getD st '\x00') = true) :
    identifier src ⟨tk, st, st + 1, ln, er⟩ =
      ⟨tk ++ [{ type := identifier_type (runFrom src is_alpha_numeric st),
                lexeme := runFrom src is_alpha_numeric st, literal := none, line := ln }],
       st, st + (runFrom src is_alpha_numeric st).length, ln, er⟩
    ∧ 0 < (runFrom src is_alpha_numeric st).length
    ∧ st + (runFrom src is_alpha_numeric st).length ≤ src.length
    ∧ (runFrom src is_alpha_numeric st).count '\n' = 0 := by
  have hst : st < src.length := by
    by_contra hge
    rw [List.getD_eq_default _ _ (by omega)] at ha
    exact absurd ha (by decide)
  have hrun := runFrom_cons src is_alpha_numeric st hst ha
  have hlen : (runFrom src is_alpha_numeric st).length
      = 1 + (runFrom src is_alpha_numeric (st + 1)).length := by
    rw [hrun, List.length_cons]
    omega
  have hr1le := runFrom_length_le src is_alpha_numeric (st + 1)
  refine ⟨?_, by omega, by omega, ?_⟩
  · unfold identifier
    dsimp only
    rw [skipWhile_run]
    unfold add_token
    dsimp only
    have htext : (src.drop st).take (st + 1 + (runFrom src is_alpha_numeric (st + 1)).length - st)
        = runFrom src is_alpha_numeric st := by
      have e1 : st + 1 + (runFrom src is_alpha_numeric (st + 1)).length - st
          = (runFrom src is_alpha_numeric st).length := by omega
      rw [e1, runFrom_take]
    rw [St.mk.injEq]
    refine ⟨by rw [htext], rfl, by omega, rfl, rfl⟩
  · exact count_nl_runFrom src is_alpha_numeric st (by decide)

theorem number_run (src : List Char) (tk : List Token) (st ln : Nat) (er : List String)
    (hd : is_digit (src.getD st '\x00') = true) :
    number src ⟨tk, st, st + 1, ln, er⟩ =
      ⟨tk ++ [{ type := TokenType.NUMBER, lexeme := numberLexemeSpec (src.drop st),
                literal := some (Literal.num (pyFloat (numberLexemeSpec (src.drop st)))),
                line := ln }],
       st, st + (numberLexemeSpec (src.drop st)).length, ln, er⟩
    ∧ 0 < (numberLexemeSpec (src.drop st)).length
    ∧ st + (numberLexemeSpec (src.drop st)).length ≤ src.length
    ∧ (numberLexemeSpec (src.drop st)).count '\n' = 0
    ∧ numberLexemeSpec (src.drop st)
        = (src.drop st).take (numberLexemeSpec (src.drop st)).length := by
  have hst : st < src.length := by
    by_contra hge
    rw [List.getD_eq_default _ _ (by omega)] at hd
    exact absurd hd (by decide)
  have hip := runFrom_cons src is_digit st hst hd
  have hiplen : (runFrom src is_digit st).length
      = 1 + (runFrom src is_digit (st + 1)).length := by
    rw [hip, List.length_cons]
    omega
  have hr1le := runFrom_length_le src is_digit (st + 1)
  refine ⟨?_, ?_, ?_, ?_, ?_⟩
  · rw [number]
    split
    · rename_i hcond
      rw [skipWhile_run src is_digit ⟨tk, st, st + 1, ln, er⟩] at hcond ⊢
      dsimp only at hcond ⊢
      obtain ⟨hc1, hc2⟩ := hcond
      rw [peek_getD] at hc1
      rw [peek_next_getD] at hc2
      dsimp only at hc1 hc2
      have hp1 : st + 1 + (runFrom src is_digit (st + 1)).length < src.length :=
        getD_lt_of_ne_nul src _ '.' (by decide) hc1
      have hspec := numberLexemeSpec_dot src st hst hd hc1 hc2
      have hr2le := runFrom_length_le src is_digit
        (st + 1 + (runFrom src is_digit (st + 1)).length + 1)
      have hspeclen : (numberLexemeSpec (src.drop st)).length
          = (runFrom src is_digit st).length + 1
            + (runFrom src is_digit (st + 1 + (runFrom src is_digit (st + 1)).length + 1)).length := by
        rw [hspec, List.length_append, List.length_cons]
        omega
      rw [skipWhile_run]
      dsimp only
      unfold add_token
      dsimp only
      have hlex : (src.drop st).take
          (st + 1 + (runFrom src is_digit (st + 1)).length + 1
            + (runFrom src is_digit (st + 1 + (runFrom src is_digit (st + 1)).length + 1)).length - st)
          = numberLexemeSpec (src.drop st) := by
        have e1 : st + 1 + (runFrom src is_digit (st + 1)).length + 1
              + (runFrom src is_digit (st + 1 + (runFrom src is_digit (st + 1)).length + 1)).length - st
            = (runFrom src is_digit st).length
              + (1 + (runFrom src is_digit (st + 1 + (runFrom src is_digit (st + 1)).length + 1)).length) := by
          omega
        rw [e1, List.take_add, runFrom_take, List.drop_drop]
        have e2 : st + (runFrom src is_digit st).length
            = st + 1 + (runFrom src is_digit (st + 1)).length := by omega
        rw [e2, hspec]
        congr 1
        rw [List.drop_eq_getElem_cons hp1]
        have e3 : 1 + (runFrom src is_digit (st + 1 + (runFrom src is_digit (st + 1)).length + 1)).length
            = (runFrom src is_digit (st + 1 + (runFrom src is_digit (st + 1)).length + 1)).length + 1 := by
          omega
        rw [e3, List.take_succ_cons, runFrom_take]
        rw [List.getD_eq_getElem _ _ hp1] at hc1
        rw [hc1]
      rw [St.mk.injEq]
      refine ⟨by rw [hlex], rfl, by omega, rfl, rfl⟩
    · rename_i hcond
      rw [skipWhile_run src is_digit ⟨tk, st, st + 1, ln, er⟩] at hcond ⊢
      dsimp only at hcond ⊢
      have hno : ¬ (src.getD (st + 1 + (runFrom src is_digit (st + 1)).length) '\x00' = '.'
          ∧ is_digit (src.getD (st + 1 + (runFrom src is_digit (st + 1)).length + 1) '\x00') = true) := by
        intro hcon
        refine hcond ⟨?_, ?_⟩
        · rw [peek_getD]
          exact hcon.1
        · rw [peek_next_getD]
          exact hcon.2
      have hspec := numberLexemeSpec_nodot src st hst hd hno
      have hnil : runFrom src is_digit (st + 1 + (runFrom src is_digit (st + 1)).length) = [] := by
        rcases Nat.lt_or_ge (st + 1 + (runFrom src is_digit (st + 1)).length) src.length with hlt | hge
        · exact runFrom_nil src is_digit _ (Or.inr (runFrom_stop src is_digit (st + 1) hlt))
        · exact runFrom_nil src is_digit _ (Or.inl hge)
      rw [skipWhile_run]
      dsimp only
      rw [hnil]
      unfold add_token
      dsimp only
      have hlex : (src.drop st).take
          (st + 1 + (runFrom src is_digit (st + 1)).length + ([] : List Char).length - st)
          = numberLexemeSpec (src.drop st) := by
        have e1 : st + 1 + (runFrom src is_digit (st + 1)).length + ([] : List Char).length - st
            = (runFrom src is_digit st).length := by
          simp only [List.length_nil]
          omega
        rw [e1, runFrom_take, hspec]
      rw [St.mk.injEq]
      refine ⟨by rw [hlex], rfl, ?_, rfl, rfl⟩
      rw [hspec]
      simp only [List.length_nil]
      omega
  · by_cases hdotc : src.getD (st + 1 + (runFrom src is_digit (st + 1)).length) '\x00' = '.'
        ∧ is_digit (src.getD (st + 1 + (runFrom src is_digit (st + 1)).length + 1) '\x00') = true
    · rw [numberLexemeSpec_dot src st hst hd hdotc.1 hdotc.2, List.length_append]
      omega
    · rw [numberLexemeSpec_nodot src st hst hd hdotc]
      omega
  · by_cases hdotc : src.getD (st + 1 + (runFrom src is_digit (st + 1)).length) '\x00' = '.'
        ∧ is_digit (src.getD (st + 1 + (runFrom src is_digit (st + 1)).length + 1) '\x00') = true
    · have hp1 : st + 1 + (runFrom src is_digit (st + 1)).length < src.length :=
        getD_lt_of_ne_nul src _ '.' (by decide) hdotc.1
      have hr2le := runFrom_length_le src is_digit
        (st + 1 + (runFrom src is_digit (st + 1)).length + 1)
      rw [numberLexemeSpec_dot src st hst hd hdotc.1 hdotc.2, List.length_append,
        List.length_cons]
      omega
    · rw [numberLexemeSpec_nodot src st hst hd hdotc]
      omega
  · by_cases hdotc : src.getD (st + 1 + (runFrom src is_digit (st + 1)).length) '\x00' = '.'
        ∧ is_digit (src.getD (st + 1 + (runFrom src is_digit (st + 1)).length + 1) '\x00') = true
    · rw [numberLexemeSpec_dot src st hst hd hdotc.1 hdotc.2, List.count_append,
        count_cons_nl]
      rw [count_nl_runFrom src is_digit st (by decide),
        count_nl_runFrom src is_digit _ (by decide), if_neg (by decide)]
    · rw [numberLexemeSpec_nodot src st hst hd hdotc]
      exact count_nl_runFrom src is_digit st (by decide)
  · by_cases hdotc : src.getD (st + 1 + (runFrom src is_digit (st + 1)).length) '\x00' = '.'
        ∧ is_digit (src.getD (st + 1 + (runFrom src is_digit (st + 1)).length + 1) '\x00') = true
    · have hp1 : st + 1 + (runFrom src is_digit (st + 1)).length < src.length :=
        getD_lt_of_ne_nul src _ '.' (by decide) hdotc.1
      have hspec := numberLexemeSpec_dot src st hst hd hdotc.1 hdotc.2
      rw [hspec, List.length_append, List.length_cons]
      have e1 : (runFrom src is_digit st).length
            + ((runFrom src is_digit (st + 1 + (runFrom src is_digit (st + 1)).length + 1)).length + 1)
          = (runFrom src is_digit st).length
            + (1 + (runFrom src is_digit (st + 1 + (runFrom src is_digit (st + 1)).length + 1)).length) := by
        omega
      rw [e1, List.take_add, runFrom_take, List.drop_drop]
      have e2 : st + (runFrom src is_digit st).length
          = st + 1 + (runFrom src is_digit (st + 1)).length := by omega
      rw [e2]
      congr 1
      rw [List.drop_eq_getElem_cons hp1]
      have e3 : 1 + (runFrom src is_digit (st + 1 + (runFrom src is_digit (st + 1)).length + 1)).length
          = (runFrom src is_digit (st + 1 + (runFrom src is_digit (st + 1)).length + 1)).length + 1 := by
        omega
      rw [e3, List.take_succ_cons, runFrom_take]
      have hdot' := hdotc.1
      rw [List.getD_eq_getElem _ _ hp1] at hdot'
      rw [hdot']
    · rw [numberLexemeSpec_nodot src st hst hd hdotc]
      exact (runFrom_take src is_digit st).symm

theorem runFrom_quote_stop (src : List Char) (i : Nat)
    (h : i + (runFrom src (fun c => c != '"') i).length < src.length) :
    src.getD (i + (runFrom src (fun c => c != '"') i).length) '\x00' = '"' := by
  have hs := runFrom_stop src (fun c => c != '"') i h
  simp only [] at hs
  rwa [bne_eq_false_iff_eq] at hs

/-- The master case analysis of one `scan_token` dispatch step. -/
theorem scan_token_step (src : List Char) (s : St)
    (hcur : s.current < src.length) (hstart : s.start = s.current)
    (hline : s.line = lineAt src s.current) :
    StepOut src s (scan_token src s) := by
  obtain ⟨tk, st, cur, ln, er⟩ := s
  dsimp only at hcur hstart hline
  have hstart' := hstart.symm
  subst hstart'
  rw [scan_token]
  dsimp only
  by_cases h1 : src.getD cur '\x00' = '('
  · rw [if_pos h1]
    exact stepOut_one src tk cur ln er TokenType.LEFT_PAREN none (by decide) hcur hline
      (by rw [h1]; decide)
  rw [if_neg h1]
  by_cases h2 : src.getD cur '\x00' = ')'
  · rw [if_pos h2]
    exact stepOut_one src tk cur ln er TokenType.RIGHT_PAREN none (by decide) hcur hline
      (by rw [h2]; decide)
  rw [if_neg h2]
  by_cases h3 : src.getD cur '\x00' = '{'
  · rw [if_pos h3]
    exact stepOut_one src tk cur ln er TokenType.LEFT_BRACE none (by decide) hcur hline
      (by rw [h3]; decide)
  rw [if_neg h3]
  by_cases h4 : src.getD cur '\x00' = '}'
  · rw [if_pos h4]
    exact stepOut_one src tk cur ln er TokenType.RIGHT_BRACE none (by decide) hcur hline
      (by rw [h4]; decide)
  rw [if_neg h4]
  by_cases h5 : src.getD cur '\x00' = '*'
  · rw [if_pos h5]
    exact stepOut_one src tk cur ln er TokenType.STAR none (by decide) hcur hline
      (by rw [h5]; decide)
  rw [if_neg h5]
  by_cases h6 : src.getD cur '\x00' = '.'
  · rw [if_pos h6]
    exact stepOut_one src tk cur ln er TokenType.DOT none (by decide) hcur hline
      (by rw [h6]; decide)
  rw [if_neg h6]
  by_cases h7 : src.getD cur '\x00' = ','
  · rw [if_pos h7]
    exact stepOut_one src tk cur ln er TokenType.COMMA none (by decide) hcur hline
      (by rw [h7]; decide)
  rw [if_neg h7]
  by_cases h8 : src.getD cur '\x00' = '+'
  · rw [if_pos h8]
    exact stepOut_one src tk cur ln er TokenType.PLUS none (by decide) hcur hline
      (by rw [h8]; decide)
  rw [if_neg h8]
  by_cases h9 : src.getD cur '\x00' = '-'
  · rw [if_pos h9]
    exact stepOut_one src tk cur ln er TokenType.MINUS none (by decide) hcur hline
      (by rw [h9]; decide)
  rw [if_neg h9]
  by_cases h10 : src.getD cur '\x00' = ';'
  · rw [if_pos h10]
    exact stepOut_one src tk cur ln er TokenType.SEMICOLON none (by decide) hcur hline
      (by rw [h10]; decide)
  rw [if_neg h10]
  by_cases h11 : src.getD cur '\x00' = '!'
  · rw [if_pos h11, matchChar_eq]
    dsimp only
    by_cases hm : cur + 1 < src.length ∧ src.getD (cur + 1) '\x00' = '='
    · rw [if_pos hm, if_pos rfl]
      refine stepOut_add_token src tk cur (cur + 1 + 1) ln er TokenType.BANG_EQUAL none
        (by decide) (by omega) (by omega) hline ?_
      have e : cur + 1 + 1 - cur = 1 + 1 := by omega
      rw [e, count_take_split src cur 1 1,
        count_take_one src cur hcur (by rw [h11]; decide),
        count_take_one src (cur + 1) hm.1 (by rw [hm.2]; decide)]
    · rw [if_neg hm, if_neg (fun hcon => Bool.noConfusion hcon)]
      exact stepOut_one src tk cur ln er TokenType.BANG none (by decide) hcur hline
        (by rw [h11]; decide)
  rw [if_neg h11]
  by_cases h12 : src.getD cur '\x00' = '='
  · rw [if_pos h12, matchChar_eq]
    dsimp only
    by_cases hm : cur + 1 < src.length ∧ src.getD (cur + 1) '\x00' = '='
    · rw [if_pos hm, if_pos rfl]
      refine stepOut_add_token src tk cur (cur + 1 + 1) ln er TokenType.EQUAL_EQUAL none
        (by decide) (by omega) (by omega) hline ?_
      have e : cur + 1 + 1 - cur = 1 + 1 := by omega
      rw [e, count_take_split src cur 1 1,
        count_take_one src cur hcur (by rw [h12]; decide),
        count_take_one src (cur + 1) hm.1 (by rw [hm.2]; decide)]
    · rw [if_neg hm, if_neg (fun hcon => Bool.noConfusion hcon)]
      exact stepOut_one src tk cur ln er TokenType.EQUAL none (by decide) hcur hline
        (by rw [h12]; decide)
  rw [if_neg h12]
  by_cases h13 : src.getD cur '\x00' = '<'
  · rw [if_pos h13, matchChar_eq]
    dsimp only
    by_cases hm : cur + 1 < src.length ∧ src.getD (cur + 1) '\x00' = '='
    · rw [if_pos hm, if_pos rfl]
      refine stepOut_add_token src tk cur (cur + 1 + 1) ln er TokenType.LESS_EQUAL none
        (by decide) (by omega) (by omega) hline ?_
      have e : cur + 1 + 1 - cur = 1 + 1 := by omega
      rw [e, count_take_split src cur 1 1,
        count_take_one src cur hcur (by rw [h13]; decide),
        count_take_one src (cur + 1) hm.1 (by rw [hm.2]; decide)]
    · rw [if_neg hm, if_neg (fun hcon => Bool.noConfusion hcon)]
      exact stepOut_one src tk cur ln er TokenType.LESS none (by decide) hcur hline
        (by rw [h13]; decide)
  rw [if_neg h13]
  by_cases h14 : src.getD cur '\x00' = '>'
  · rw [if_pos h14, matchChar_eq]
    dsimp only
    by_cases hm : cur + 1 < src.length ∧ src.getD (cur + 1) '\x00' = '='
    · rw [if_pos hm, if_pos rfl]
      refine stepOut_add_token src tk cur (cur + 1 + 1) ln er TokenType.GREATER_EQUAL none
        (by decide) (by omega) (by omega) hline ?_
      have e : cur + 1 + 1 - cur = 1 + 1 := by omega
      rw [e, count_take_split src cur 1 1,
        count_take_one src cur hcur (by rw [h14]; decide),
        count_take_one src (cur + 1) hm.1 (by rw [hm.2]; decide)]
    · rw [if_neg hm, if_neg (fun hcon => Bool.noConfusion hcon)]
      exact stepOut_one src tk cur ln er TokenType.GREATER none (by decide) hcur hline
        (by rw [h14]; decide)
  rw [if_neg h14]
  by_cases h15 : src.getD cur '\x00' = '/'
  · rw [if_pos h15, matchChar_eq]
    dsimp only
    by_cases hm : cur + 1 < src.length ∧ src.getD (cur + 1) '\x00' = '/'
    · rw [if_pos hm, if_pos rfl]
      rw [skipWhile_run]
      dsimp only
      have hrle := runFrom_length_le src (fun ch => ch != '\n') (cur + 1 + 1)
      refine stepOut_skip src _ _ (by dsimp only; omega) (by dsimp only; omega) ?_ (le_refl ln) rfl rfl
      dsimp only
      have e : cur + 1 + 1 + (runFrom src (fun ch => ch != '\n') (cur + 1 + 1)).length
          = cur + (1 + (1 + (runFrom src (fun ch => ch != '\n') (cur + 1 + 1)).length)) := by
        omega
      rw [e, lineAt_add,
        count_take_split src cur 1 (1 + (runFrom src (fun ch => ch != '\n') (cur + 1 + 1)).length),
        count_take_one src cur hcur (by rw [h15]; decide),
        count_take_split src (cur + 1) 1 (runFrom src (fun ch => ch != '\n') (cur + 1 + 1)).length,
        count_take_one src (cur + 1) hm.1 (by rw [hm.2]; decide),
        runFrom_take, count_nl_runFrom src (fun ch => ch != '\n') (cur + 1 + 1) (by decide)]
      omega
    · rw [if_neg hm, if_neg (fun hcon => Bool.noConfusion hcon)]
      exact stepOut_one src tk cur ln er TokenType.SLASH none (by decide) hcur hline
        (by rw [h15]; decide)
  rw [if_neg h15]
  by_cases h16 : src.getD cur '\x00' = ' ' ∨ src.getD cur '\x00' = '\r' ∨ src.getD cur '\x00' = '\t'
  · rw [if_pos h16]
    refine stepOut_skip src _ _ (by dsimp only; omega) (by dsimp only; omega) ?_ (le_refl ln) rfl rfl
    dsimp only
    have hne : src.getD cur '\x00' ≠ '\n' := by
      rcases h16 with h | h | h <;> rw [h] <;> decide
    have e : cur + 1 = cur + 1 := rfl
    rw [lineAt_add src cur 1, count_take_one src cur hcur hne]
    omega
  rw [if_neg h16]
  by_cases h17 : src.getD cur '\x00' = '\n'
  · rw [if_pos h17]
    refine stepOut_skip src _ _ (by dsimp only; omega) (by dsimp only; omega) ?_ (by dsimp only; omega) rfl rfl
    dsimp only
    rw [lineAt_add src cur 1, count_take_one_nl src cur hcur h17]
    omega
  rw [if_neg h17]
  by_cases h18 : src.getD cur '\x00' = '"'
  · rw [if_pos h18]
    by_cases hterm : src.length ≤ cur + 1 + (runFrom src (fun c => c != '"') (cur + 1)).length
    · rw [string_unterminated src ⟨tk, cur, cur + 1, ln, er⟩ hterm]
      dsimp only
      have hrle := runFrom_length_le src (fun c => c != '"') (cur + 1)
      refine stepOut_skip src _ _ (by dsimp only; omega) (by dsimp only; omega) ?_ (by dsimp only; omega) rfl rfl
      dsimp only
      have e : cur + 1 + (runFrom src (fun c => c != '"') (cur + 1)).length
          = cur + (1 + (runFrom src (fun c => c != '"') (cur + 1)).length) := by omega
      rw [e, lineAt_add,
        count_take_split src cur 1 (runFrom src (fun c => c != '"') (cur + 1)).length,
        count_take_one src cur hcur (by rw [h18]; decide), runFrom_take]
      omega
    · have hopen : cur + 1 + (runFrom src (fun c => c != '"') (cur + 1)).length < src.length := by
        omega
      rw [string_closed src ⟨tk, cur, cur + 1, ln, er⟩ hopen]
      dsimp only
      unfold add_token
      dsimp only
      have hclose := runFrom_quote_stop src (cur + 1) hopen
      have hlineb : ln + (runFrom src (fun c => c != '"') (cur + 1)).count '\n'
          = lineAt src (cur + 1 + (runFrom src (fun c => c != '"') (cur + 1)).length + 1) := by
        have e : cur + 1 + (runFrom src (fun c => c != '"') (cur + 1)).length + 1
            = cur + (1 + ((runFrom src (fun c => c != '"') (cur + 1)).length + 1)) := by omega
        rw [e, lineAt_add,
          count_take_split src cur 1 ((runFrom src (fun c => c != '"') (cur + 1)).length + 1),
          count_take_one src cur hcur (by rw [h18]; decide),
          count_take_split src (cur + 1) (runFrom src (fun c => c != '"') (cur + 1)).length 1,
          runFrom_take,
          count_take_one src (cur + 1 + (runFrom src (fun c => c != '"') (cur + 1)).length)
            hopen (by rw [hclose]; decide)]
        omega
      unfold StepOut
      dsimp only
      refine ⟨by omega, by omega, hlineb, by omega, rfl,
        [{ type := TokenType.STRING,
           lexeme := (src.drop cur).take (cur + 1 + (runFrom src (fun c => c != '"') (cur + 1)).length + 1 - cur),
           literal := some (Literal.str ((src.drop (cur + 1)).take
             (cur + 1 + (runFrom src (fun c => c != '"') (cur + 1)).length - (cur + 1)))),
           line := ln + (runFrom src (fun c => c != '"') (cur + 1)).count '\n' }], rfl, ?_⟩
      intro t ht
      rw [List.mem_singleton] at ht
      subst ht
      exact ⟨TokOk_slice src TokenType.STRING _ cur
        (cur + 1 + (runFrom src (fun c => c != '"') (cur + 1)).length + 1)
        (ln + (runFrom src (fun c => c != '"') (cur + 1)).count '\n')
        (by omega) (by omega) hlineb, fun hcon => TokenType.noConfusion hcon, rfl⟩
  rw [if_neg h18]
  by_cases h19 : is_digit (src.getD cur '\x00') = true
  · rw [if_pos h19]
    obtain ⟨hnum, hpos, hle, hcnt, hpre⟩ := number_run src tk cur ln er h19
    rw [hnum]
    have hlineb : ln = lineAt src (cur + (numberLexemeSpec (src.drop cur)).length) := by
      rw [lineAt_add, ← hpre, hcnt]
      omega
    unfold StepOut
    dsimp only
    refine ⟨by omega, hle, hlineb, le_refl ln, rfl,
      [{ type := TokenType.NUMBER, lexeme := numberLexemeSpec (src.drop cur),
         literal := some (Literal.num (pyFloat (numberLexemeSpec (src.drop cur)))), line := ln }],
      rfl, ?_⟩
    intro t ht
    rw [List.mem_singleton] at ht
    subst ht
    refine ⟨?_, fun hcon => TokenType.noConfusion hcon, rfl⟩
    have e : (src.drop cur).take (cur + (numberLexemeSpec (src.drop cur)).length - cur)
        = numberLexemeSpec (src.drop cur) := by
      have e1 : cur + (numberLexemeSpec (src.drop cur)).length - cur
          = (numberLexemeSpec (src.drop cur)).length := by omega
      rw [e1, ← hpre]
    have hto := TokOk_slice src TokenType.NUMBER
      (some (Literal.num (pyFloat (numberLexemeSpec (src.drop cur))))) cur
      (cur + (numberLexemeSpec (src.drop cur)).length) ln (by omega) hle hlineb
    rwa [e] at hto
  rw [if_neg h19]
  by_cases h20 : is_alpha_numeric (src.getD cur '\x00') = true
  · rw [if_pos h20]
    obtain ⟨hid, hpos, hle, hcnt⟩ := identifier_run src tk cur ln er h20
    rw [hid]
    have hlineb : ln = lineAt src (cur + (runFrom src is_alpha_numeric cur).length) := by
      rw [lineAt_add, runFrom_take, hcnt]
      omega
    unfold StepOut
    dsimp only
    refine ⟨by omega, hle, hlineb, le_refl ln, rfl,
      [{ type := identifier_type (runFrom src is_alpha_numeric cur),
         lexeme := runFrom src is_alpha_numeric cur, literal := none, line := ln }], rfl, ?_⟩
    intro t ht
    rw [List.mem_singleton] at ht
    subst ht
    refine ⟨?_, identifier_type_ne_eof _, rfl⟩
    have e : (src.drop cur).take (cur + (runFrom src is_alpha_numeric cur).length - cur)
        = runFrom src is_alpha_numeric cur := by
      have e1 : cur + (runFrom src is_alpha_numeric cur).length - cur
          = (runFrom src is_alpha_numeric cur).length := by omega
      rw [e1, runFrom_take]
    have hto := TokOk_slice src (identifier_type (runFrom src is_alpha_numeric cur)) none cur
      (cur + (runFrom src is_alpha_numeric cur).length) ln (by omega) hle hlineb
    rwa [e] at hto
  rw [if_neg h20]
  unfold error
  dsimp only
  refine stepOut_skip src _ _ (by dsimp only; omega) (by dsimp only; omega) ?_ (le_refl ln) rfl rfl
  dsimp only
  rw [lineAt_add src cur 1, count_take_one src cur hcur h17]
  omega

/-- The scan loop preserves the invariant and, with enough fuel, consumes the
entire source. -/
theorem scanLoop_master (src : List Char) :
    ∀ (fuel : Nat) (s : St), Inv src s →
    Inv src (scanLoop src fuel s)
      ∧ (src.length - s.current ≤ fuel → src.length ≤ (scanLoop src fuel s).current) := by
  intro fuel
  induction fuel with
  | zero =>
    intro s hinv
    rw [scanLoop]
    exact ⟨hinv, fun h => by omega⟩
  | succ n ih =>
    intro s hinv
    obtain ⟨tk, st0, cur, ln, er⟩ := s
    obtain ⟨hc, hl, htoks, hpw⟩ := hinv
    dsimp only at hc hl
    rw [scanLoop]
    by_cases hend : is_at_end src ⟨tk, st0, cur, ln, er⟩ = true
    · rw [if_pos hend]
      rw [is_at_end_iff] at hend
      dsimp only at hend
      exact ⟨⟨hc, hl, htoks, hpw⟩, fun _ => hend⟩
    · rw [if_neg hend]
      rw [is_at_end_iff] at hend
      dsimp only at hend
      have hcur : cur < src.length := by omega
      have hstep := scan_token_step src ⟨tk, cur, cur, ln, er⟩ hcur rfl hl
      obtain ⟨hlt, hle, hsync, hlemono, hstart2, ts, htokeq, hts⟩ := hstep
      dsimp only at hlt hlemono htokeq
      have hinv' : Inv src (scan_token src ⟨tk, cur, cur, ln, er⟩) := by
        refine ⟨hle, hsync, ?_, ?_⟩
        · intro t ht
          rw [htokeq] at ht
          rcases List.mem_append.mp ht with hmem | hmem
          · obtain ⟨ho1, ho2, ho3⟩ := htoks t hmem
            exact ⟨ho1, ho2, le_trans ho3 hlemono⟩
          · obtain ⟨ht1, ht2, ht3⟩ := hts t hmem
            exact ⟨ht1, ht2, le_of_eq ht3⟩
        · rw [htokeq, List.pairwise_append]
          refine ⟨hpw, ?_, ?_⟩
          · refine List.pairwise_of_forall_mem_list ?_
            intro a ha b hb
            have h1 := (hts a ha).2.2
            have h2 := (hts b hb).2.2
            omega
          · intro a ha b hb
            have h1 := (htoks a ha).2.2
            dsimp only at h1
            have h2 := (hts b hb).2.2
            have h3 := hlemono
            omega
      refine ⟨(ih _ hinv').1, fun h => (ih _ hinv').2 ?_⟩
      have h' : src.length - cur ≤ n + 1 := h
      show src.length - (scan_token src ⟨tk, cur, cur, ln, er⟩).current ≤ n
      omega

theorem initSt_inv (src : List Char) : Inv src initSt := by
  refine ⟨?_, ?_, ?_, ?_⟩
  · rw [initSt]
    dsimp only
    omega
  · rw [initSt]
    dsimp only
    rw [lineAt_zero]
  · intro t ht
    rw [initSt] at ht
    dsimp only at ht
    exact absurd ht (List.not_mem_nil t)
  · rw [initSt]
    dsimp only
    exact List.Pairwise.nil

theorem scanLoop_inv_final (src : List Char) :
    Inv src (scanLoop src src.length initSt)
      ∧ (scanLoop src src.length initSt).current = src.length := by
  have h := scanLoop_master src src.length initSt (initSt_inv src)
  have h2 : src.length ≤ (scanLoop src src.length initSt).current := by
    refine h.2 ?_
    rw [initSt]
    dsimp only
    omega
  exact ⟨h.1, by have := h.1.1; omega⟩

theorem scanLoop_final_line (src : List Char) :
    (scanLoop src src.length initSt).line = lineAt src src.length := by
  obtain ⟨⟨hc, hl, _, _⟩, hcur⟩ := scanLoop_inv_final src
  rw [hl, hcur]

theorem lineAt_drop_count (src : List Char) (e : Nat) (lex : List Char)
    (hlen : lex.length ≤ e)
    (hlex : lex = (src.take e).drop (e - lex.length))
    (hnl : lex.count '\n' = 0) :
    lineAt src e = lineAt src (e - lex.length) := by
  have h1 : (src.take e).take (e - lex.length) = src.take (e - lex.length) := by
    rw [List.take_take]
    congr 1
    omega
  have h2 : src.take e = src.take (e - lex.length) ++ lex := by
    conv_lhs => rw [← List.take_append_drop (e - lex.length) (src.take e)]
    rw [h1, ← hlex]
  rw [lineAt, lineAt, h2, List.count_append, hnl]
  omega

/-! ### Claims -/

/-- C2: scanning always terminates with a complete pass over the source.  The
dispatch loop, given the fuel `scan_tokens` supplies, consumes the entire
source — the cursor ends exactly at `src.length`, so no error ever halts the
pass early — and `scan_tokens` returns the token/diagnostic pair assembled
from that final state.  (That every run of the embedded functions yields a
value at all is totality of the Lean definitions; Python-level exceptions
have no counterpart in the embedding.) -/
theorem scan_always_completes : ∀ src : List Char,
    (scanLoop src src.length initSt).current = src.length
    ∧ scan_tokens src
        = ((scanLoop src src.length initSt).tokens
            ++ [{ type := TokenType.EOF, lexeme := [], literal := none,
                  line := (scanLoop src src.length initSt).line }],
           (scanLoop src src.length initSt).errors) :=
  fun src => ⟨(scanLoop_inv_final src).2, rfl⟩

theorem scan_always_completes_witness :
    (scanLoop ('a' :: '+' ::[]) 2 initSt).current = 2
    ∧ scan_tokens ('a' :: '+' ::[])
        = ((scanLoop ('a' :: '+' ::[]) 2 initSt).tokens
            ++ [{ type := TokenType.EOF, lexeme := [], literal := none,
                  line := (scanLoop ('a' :: '+' ::[]) 2 initSt).line }],
           (scanLoop ('a' :: '+' ::[]) 2 initSt).errors) :=
  scan_always_completes ('a' :: '+' ::[])

/-- C3: the token sequence always ends with exactly one EOF token with empty
lexeme, no literal, and the final value of the line counter; the empty string
scans to exactly that single EOF token and no diagnostics. -/
theorem eof_terminates_token_list : ∀ src : List Char,
    (∃ ts, (scan_tokens src).1
        = ts ++ [{ type := TokenType.EOF, lexeme := [], literal := none,
                   line := (scanLoop src src.length initSt).line }]
      ∧ ∀ t ∈ ts, t.type ≠ TokenType.EOF)
    ∧ scan_tokens ([] : List Char)
        = ([{ type := TokenType.EOF, lexeme := [], literal := none, line := 1 }], []) := by
  intro src
  constructor
  · refine ⟨(scanLoop src src.length initSt).tokens, rfl, ?_⟩
    intro t ht
    exact ((scanLoop_inv_final src).1.2.2.1 t ht).2.1
  · decide

theorem eof_terminates_token_list_witness :
    (∃ ts, (scan_tokens ('+' ::[])).1
        = ts ++ [{ type := TokenType.EOF, lexeme := [], literal := none,
                   line := (scanLoop ('+' ::[]) ('+' ::[]).length initSt).line }]
      ∧ ∀ t ∈ ts, t.type ≠ TokenType.EOF)
    ∧ scan_tokens ([] : List Char)
        = ([{ type := TokenType.EOF, lexeme := [], literal := none, line := 1 }], []) :=
  eof_terminates_token_list ('+' ::[])

/-- C9: line numbers are monotonically non-decreasing along the token
sequence returned by `scan_tokens`. -/
theorem token_lines_monotone : ∀ src : List Char,
    ((scan_tokens src).1).Pairwise (fun a b => a.line ≤ b.line) := by
  intro src
  obtain ⟨⟨hc, hl, htoks, hpw⟩, hcur⟩ := scanLoop_inv_final src
  show ((scanLoop src src.length initSt).tokens
    ++ [({ type := TokenType.EOF, lexeme := [], literal := none,
           line := (scanLoop src src.length initSt).line } : Token)]).Pairwise
      (fun a b => a.line ≤ b.line)
  rw [List.pairwise_append]
  refine ⟨hpw, ?_, ?_⟩
  · refine List.pairwise_of_forall_mem_list ?_
    intro a ha b hb
    rw [List.mem_singleton] at ha hb
    subst ha
    subst hb
    exact le_refl _
  · intro a ha b hb
    rw [List.mem_singleton] at hb
    subst hb
    exact (htoks a ha).2.2

theorem token_lines_monotone_witness :
    ((scan_tokens ('1' :: '\n' :: '+' ::[])).1).Pairwise (fun a b => a.line ≤ b.line) :=
  token_lines_monotone ('1' :: '\n' :: '+' ::[])

/-- C1 is false as stated: in `Scanner.string` the line counter is advanced
past every newline of the literal before `add_token` runs, so a STRING token
that spans several lines is reported with the line of its CLOSING quote, not
its opening quote.  Concretely, scanning `"a\nb"` produces a STRING token
whose lexeme starts at offset 0 — line 1 — but whose `line` field is 2. -/
theorem multiline_string_line_counterexample :
    (scan_tokens ('"' :: 'a' :: '\n' :: 'b' :: '"' ::[])).1
      = [{ type := TokenType.STRING, lexeme := '"' :: 'a' :: '\n' :: 'b' :: '"' ::[],
           literal := some (Literal.str ('a' :: '\n' :: 'b' ::[])), line := 2 },
         { type := TokenType.EOF, lexeme := [], literal := none, line := 2 }]
    ∧ lineAt ('"' :: 'a' :: '\n' :: 'b' :: '"' ::[]) 0 = 1
    ∧ ((scan_tokens ('"' :: 'a' :: '\n' :: 'b' :: '"' ::[])).1.headD
          { type := TokenType.EOF, lexeme := [], literal := none, line := 0 }).line
        ≠ lineAt ('"' :: 'a' :: '\n' :: 'b' :: '"' ::[]) 0 := by
  decide

/-- C1 (amended): every token emitted by `scan_tokens` is a slice of the
source ending at some offset `e`, and its `line` field is the 1-based line
number at `e`, i.e. at the END of the lexeme.  Whenever the lexeme contains
no newline — every token kind except a multi-line STRING — this coincides
with the 1-based line number of the offset where the lexeme began. -/
theorem token_line_characterization : ∀ (src : List Char) (t : Token),
    t ∈ (scan_tokens src).1 →
    ∃ e, t.lexeme.length ≤ e ∧ e ≤ src.length
      ∧ t.lexeme = (src.take e).drop (e - t.lexeme.length)
      ∧ t.line = lineAt src e
      ∧ (t.lexeme.count '\n' = 0 → t.line = lineAt src (e - t.lexeme.length)) := by
  intro src t ht
  obtain ⟨⟨hc, hl, htoks, hpw⟩, hcur⟩ := scanLoop_inv_final src
  have hsplit : t ∈ (scanLoop src src.length initSt).tokens
      ∨ t = { type := TokenType.EOF, lexeme := [], literal := none,
              line := (scanLoop src src.length initSt).line } := by
    rcases List.mem_append.mp ht with h | h
    · exact Or.inl h
    · exact Or.inr (List.mem_singleton.mp h)
  rcases hsplit with hmem | heq
  · obtain ⟨⟨e, h1, h2, h3, h4⟩, _, _⟩ := htoks t hmem
    refine ⟨e, h1, h2, h3, h4, ?_⟩
    intro hnl
    rw [h4]
    exact lineAt_drop_count src e t.lexeme h1 h3 hnl
  · subst heq
    refine ⟨src.length, ?_, le_refl _, ?_, ?_, ?_⟩
    · dsimp only
      simp
    · dsimp only
      simp only [List.length_nil, Nat.sub_zero]
      rw [List.drop_eq_nil_of_le (by rw [List.length_take]; omega)]
    · dsimp only
      rw [scanLoop_final_line]
    · intro _
      dsimp only
      simp only [List.length_nil, Nat.sub_zero]
      rw [scanLoop_final_line]

theorem token_line_characterization_witness :
    ∃ e, (({ type := TokenType.PLUS, lexeme := '+' ::[], literal := none,
             line := 1 } : Token)).lexeme.length ≤ e
      ∧ e ≤ ('+' ::[] : List Char).length
      ∧ ({ type := TokenType.PLUS, lexeme := '+' ::[], literal := none,
           line := 1 } : Token).lexeme
          = (('+' ::[] : List Char).take e).drop
              (e - ({ type := TokenType.PLUS, lexeme := '+' ::[], literal := none,
                      line := 1 } : Token).lexeme.length)
      ∧ ({ type := TokenType.PLUS, lexeme := '+' ::[], literal := none,
           line := 1 } : Token).line = lineAt ('+' ::[]) e
      ∧ (({ type := TokenType.PLUS, lexeme := '+' ::[], literal := none,
            line := 1 } : Token).lexeme.count '\n' = 0 →
          ({ type := TokenType.PLUS, lexeme := '+' ::[], literal := none,
             line := 1 } : Token).line
            = lineAt ('+' ::[])
                (e - ({ type := TokenType.PLUS, lexeme := '+' ::[], literal := none,
                        line := 1 } : Token).lexeme.length)) :=
  token_line_characterization ('+' ::[])
    { type := TokenType.PLUS, lexeme := '+' ::[], literal := none, line := 1 }
    (by decide)

/-- C4: when the source ends inside a string literal, `string` emits no token,
appends exactly one diagnostic `"[line {line}] Error: Unterminated string."`
with the line counter's current value, and the scan loop adds no further
token afterwards (only the EOF marker appended by `scan_tokens` follows);
concretely, scanning `"abc` (no closing quote) yields only EOF and that one
diagnostic. -/
theorem unterminated_string_diagnostic : ∀ (src : List Char) (s : St),
    src.length ≤ (stringLoop src src.length s).current →
    ((Scanner.string src s).tokens = s.tokens
      ∧ (Scanner.string src s).errors
          = s.errors ++ ["[line " ++ toString (stringLoop src src.length s).line
              ++ "] Error: Unterminated string."]
      ∧ (∀ fuel, scanLoop src fuel (Scanner.string src s) = Scanner.string src s))
    ∧ scan_tokens ('"' :: 'a' :: 'b' :: 'c' ::[])
        = ([{ type := TokenType.EOF, lexeme := [], literal := none, line := 1 }],
           ["[line 1] Error: Unterminated string."]) := by
  intro src s h
  have hterm : src.length ≤ s.current + (runFrom src (fun c => c != '"') s.current).length := by
    rw [stringLoop_run] at h
    exact h
  have heq := string_unterminated src s hterm
  refine ⟨⟨?_, ?_, ?_⟩, by decide⟩
  · rw [heq]
  · rw [heq, stringLoop_run]
  · intro fuel
    rw [heq]
    cases fuel with
    | zero => rw [scanLoop]
    | succ n =>
      rw [scanLoop, if_pos ?_]
      rw [is_at_end_iff]
      dsimp only
      exact hterm

theorem unterminated_string_diagnostic_witness :
    (((Scanner.string ('"' ::[]) ⟨[], 0, 1, 1, []⟩).tokens = ([] : List Token)
      ∧ (Scanner.string ('"' ::[]) ⟨[], 0, 1, 1, []⟩).errors
          = ([] : List String) ++ ["[line "
              ++ toString (stringLoop ('"' ::[]) ('"' ::[] : List Char).length ⟨[], 0, 1, 1, []⟩).line
              ++ "] Error: Unterminated string."]
      ∧ (∀ fuel, scanLoop ('"' ::[]) fuel (Scanner.string ('"' ::[]) ⟨[], 0, 1, 1, []⟩)
          = Scanner.string ('"' ::[]) ⟨[], 0, 1, 1, []⟩))
    ∧ scan_tokens ('"' :: 'a' :: 'b' :: 'c' ::[])
        = ([{ type := TokenType.EOF, lexeme := [], literal := none, line := 1 }],
           ["[line 1] Error: Unterminated string."])) :=
  unterminated_string_diagnostic ('"' ::[]) ⟨[], 0, 1, 1, []⟩ (by decide)

/-- C5: a dispatched character matched by no rule produces exactly the
diagnostic `"[line {line}] Error: Unexpected character: {c}"`, no token, and
scanning resumes at the next character (only `current` and `errors` change);
concretely `scan "@+"` recovers and still scans the following `+`. -/
theorem unexpected_character_diagnostic : ∀ (src : List Char) (s : St),
    s.current < src.length →
    src.getD s.current '\x00' ∉ ['(', ')', '{', '}', '*', '.', ',', '+', '-', ';',
      '!', '=', '<', '>', '/', ' ', '\r', '\t', '\n', '"'] →
    is_digit (src.getD s.current '\x00') = false →
    is_alpha_numeric (src.getD s.current '\x00') = false →
    scan_token src s
      = {s with current := s.current + 1,
                errors := s.errors ++ ["[line " ++ toString s.line
                  ++ "] Error: Unexpected character: "
                  ++ String.singleton (src.getD s.current '\x00')]}
    ∧ scan_tokens ('@' :: '+' ::[])
      = ([{ type := TokenType.PLUS, lexeme := '+' ::[], literal := none, line := 1 },
          { type := TokenType.EOF, lexeme := [], literal := none, line := 1 }],
         ["[line 1] Error: Unexpected character: @"]) := by
  intro src s hcur hmem hdig halpha
  simp only [List.mem_cons, List.not_mem_nil, or_false, not_or] at hmem
  obtain ⟨n1, n2, n3, n4, n5, n6, n7, n8, n9, n10, n11, n12, n13, n14, n15, n16,
    n17, n18, n19, n20⟩ := hmem
  obtain ⟨tk, st0, cur, ln, er⟩ := s
  dsimp only at hcur hdig halpha n1 n2 n3 n4 n5 n6 n7 n8 n9 n10
  dsimp only at n11 n12 n13 n14 n15 n16 n17 n18 n19 n20
  refine ⟨?_, by decide⟩
  rw [scan_token]
  dsimp only
  rw [if_neg n1, if_neg n2, if_neg n3, if_neg n4, if_neg n5, if_neg n6, if_neg n7,
    if_neg n8, if_neg n9, if_neg n10, if_neg n11, if_neg n12, if_neg n13, if_neg n14,
    if_neg n15, if_neg (fun hcon => by rcases hcon with h | h | h
                                       exacts [n16 h, n17 h, n18 h]),
    if_neg n19, if_neg n20,
    if_neg (fun hcon => by rw [hdig] at hcon; exact Bool.noConfusion hcon),
    if_neg (fun hcon => by rw [halpha] at hcon; exact Bool.noConfusion hcon)]
  unfold error
  dsimp only
  have hstr : "[line " ++ toString ln ++ "] Error: "
      ++ ("Unexpected character: " ++ String.singleton (src.getD cur '\x00'))
      = "[line " ++ toString ln ++ "] Error: Unexpected character: "
        ++ String.singleton (src.getD cur '\x00') := by
    rw [← String.append_assoc,
      String.append_assoc ("[line " ++ toString ln) "] Error: " "Unexpected character: "]
    rw [show ("] Error: " ++ "Unexpected character: " : String)
      = "] Error: Unexpected character: " from rfl]
  rw [hstr]

theorem unexpected_character_diagnostic_witness :
    (scan_token ('@' ::[]) ⟨[], 0, 0, 1, []⟩
      = {(⟨[], 0, 0, 1, []⟩ : St) with current := (0 : Nat) + 1,
                                       errors := ([] : List String) ++ ["[line "
                                         ++ toString (1 : Nat)
                                         ++ "] Error: Unexpected character: "
                                         ++ String.singleton (('@' ::[] : List Char).getD 0 '\x00')]}
    ∧ scan_tokens ('@' :: '+' ::[])
      = ([{ type := TokenType.PLUS, lexeme := '+' ::[], literal := none, line := 1 },
          { type := TokenType.EOF, lexeme := [], literal := none, line := 1 }],
         ["[line 1] Error: Unexpected character: @"])) :=
  unexpected_character_diagnostic ('@' ::[]) ⟨[], 0, 0, 1, []⟩ (by decide) (by decide)
    (by decide) (by decide)

/-- C6: `number` (entered with the first digit already consumed, so
`current = start + 1`) consumes exactly the spec's maximal number lexeme —
the leading digit run, extended past a `.` only when the dot is immediately
followed by a digit — and emits one NUMBER token carrying the decimal value
of that lexeme; `"123.45"` scans to NUMBER(2469/20) and `"123."` to
NUMBER(123) followed by DOT. -/
theorem number_scanning_spec : ∀ (src : List Char) (s : St),
    s.current = s.start + 1 →
    is_digit (src.getD s.start '\x00') = true →
    (number src s
        = {s with current := s.start + (numberLexemeSpec (src.drop s.start)).length,
                  tokens := s.tokens ++
                    [{ type := TokenType.NUMBER,
                       lexeme := numberLexemeSpec (src.drop s.start),
                       literal := some (Literal.num (pyFloat (numberLexemeSpec (src.drop s.start)))),
                       line := s.line }]}
      ∧ numberLexemeSpec (src.drop s.start)
          = (src.drop s.start).take (numberLexemeSpec (src.drop s.start)).length)
    ∧ scan "123.45"
        = ([{ type := TokenType.NUMBER, lexeme := '1' :: '2' :: '3' :: '.' :: '4' :: '5' ::[],
              literal := some (Literal.num ((2469 : ℚ)/20)), line := 1 },
            { type := TokenType.EOF, lexeme := [], literal := none, line := 1 }], [])
    ∧ scan "123."
        = ([{ type := TokenType.NUMBER, lexeme := '1' :: '2' :: '3' ::[],
              literal := some (Literal.num (123 : ℚ)), line := 1 },
            { type := TokenType.DOT, lexeme := '.' ::[], literal := none, line := 1 },
            { type := TokenType.EOF, lexeme := [], literal := none, line := 1 }], []) := by
  intro src s hc hd
  refine ⟨?_, ?_, ?_⟩
  · obtain ⟨tk, st0, cur, ln, er⟩ := s
    dsimp only at hc hd
    subst hc
    obtain ⟨hrun, _, _, _, hpre⟩ := number_run src tk st0 ln er hd
    exact ⟨hrun, hpre⟩
  · have h1 : scan "123.45"
        = ([{ type := TokenType.NUMBER, lexeme := '1' :: '2' :: '3' :: '.' :: '4' :: '5' ::[],
              literal := some (Literal.num (pyFloat ('1' :: '2' :: '3' :: '.' :: '4' :: '5' ::[]))),
              line := 1 },
            { type := TokenType.EOF, lexeme := [], literal := none, line := 1 }], []) := by
      rfl
    have h2 : pyFloat ('1' :: '2' :: '3' :: '.' :: '4' :: '5' ::[]) = (2469 : ℚ)/20 := by
      have h3 : pyFloat ('1' :: '2' :: '3' :: '.' :: '4' :: '5' ::[])
          = (digitsToNat ('1' :: '2' :: '3' ::[]) : ℚ)
            + (digitsToNat ('4' :: '5' ::[]) : ℚ) / ((10 : ℚ) ^ (2 : Nat)) := rfl
      rw [h3, show digitsToNat ('1' :: '2' :: '3' ::[]) = 123 from rfl,
        show digitsToNat ('4' :: '5' ::[]) = 45 from rfl]
      norm_num
    rw [h1, h2]
  · have h1 : scan "123."
        = ([{ type := TokenType.NUMBER, lexeme := '1' :: '2' :: '3' ::[],
              literal := some (Literal.num (pyFloat ('1' :: '2' :: '3' ::[]))), line := 1 },
            { type := TokenType.DOT, lexeme := '.' ::[], literal := none, line := 1 },
            { type := TokenType.EOF, lexeme := [], literal := none, line := 1 }], []) := by
      rfl
    have h2 : pyFloat ('1' :: '2' :: '3' ::[]) = (123 : ℚ) := by
      have h3 : pyFloat ('1' :: '2' :: '3' ::[]) = (digitsToNat ('1' :: '2' :: '3' ::[]) : ℚ) := rfl
      rw [h3, show digitsToNat ('1' :: '2' :: '3' ::[]) = 123 from rfl]
      norm_num
    rw [h1, h2]

theorem number_scanning_spec_witness :
    ((number ('5' ::[]) ⟨[], 0, 1, 1, []⟩
        = {(⟨[], 0, 1, 1, []⟩ : St) with
            current := 0 + (numberLexemeSpec (('5' ::[] : List Char).drop 0)).length,
            tokens := ([] : List Token) ++
              [{ type := TokenType.NUMBER,
                 lexeme := numberLexemeSpec (('5' ::[] : List Char).drop 0),
                 literal := some (Literal.num (pyFloat (numberLexemeSpec (('5' ::[] : List Char).drop 0)))),
                 line := 1 }]}
      ∧ numberLexemeSpec (('5' ::[] : List Char).drop 0)
          = (('5' ::[] : List Char).drop 0).take (numberLexemeSpec (('5' ::[] : List Char).drop 0)).length)
    ∧ scan "123.45"
        = ([{ type := TokenType.NUMBER, lexeme := '1' :: '2' :: '3' :: '.' :: '4' :: '5' ::[],
              literal := some (Literal.num ((2469 : ℚ)/20)), line := 1 },
            { type := TokenType.EOF, lexeme := [], literal := none, line := 1 }], [])
    ∧ scan "123."
        = ([{ type := TokenType.NUMBER, lexeme := '1' :: '2' :: '3' ::[],
              literal := some (Literal.num (123 : ℚ)), line := 1 },
            { type := TokenType.DOT, lexeme := '.' ::[], literal := none, line := 1 },
            { type := TokenType.EOF, lexeme := [], literal := none, line := 1 }], [])) :=
  number_scanning_spec ('5' ::[]) ⟨[], 0, 1, 1, []⟩ (by decide) (by decide)

/-- C7: a string literal closed before end of source produces one STRING
token whose literal is exactly the raw text strictly between the quotes —
no escape processing, so a backslash is an ordinary character and does not
keep the next `"` from closing the literal — and the line counter grows by
one per newline inside the literal. -/
theorem string_literal_spec : ∀ (src : List Char) (s : St),
    s.current = s.start + 1 →
    s.current + (runFrom src (fun c => c != '"') s.current).length < src.length →
    (Scanner.string src s
        = {s with current := s.current + (runFrom src (fun c => c != '"') s.current).length + 1,
                  line := s.line + (runFrom src (fun c => c != '"') s.current).count '\n',
                  tokens := s.tokens ++
                    [{ type := TokenType.STRING,
                       lexeme := (src.drop s.start).take
                         ((runFrom src (fun c => c != '"') s.current).length + 2),
                       literal := some (Literal.str (runFrom src (fun c => c != '"') s.current)),
                       line := s.line + (runFrom src (fun c => c != '"') s.current).count '\n' }]}
      ∧ runFrom src (fun c => c != '"') s.current
          = (src.drop (s.start + 1)).take
              (s.current + (runFrom src (fun c => c != '"') s.current).length - (s.start + 1)))
    ∧ scan_tokens ('"' :: 'a' :: '\\' :: '"' ::[])
        = ([{ type := TokenType.STRING, lexeme := '"' :: 'a' :: '\\' :: '"' ::[],
              literal := some (Literal.str ('a' :: '\\' ::[])), line := 1 },
            { type := TokenType.EOF, lexeme := [], literal := none, line := 1 }], [])
    ∧ scan_tokens ('"' :: 'a' :: '\n' :: 'b' :: '"' ::[])
        = ([{ type := TokenType.STRING, lexeme := '"' :: 'a' :: '\n' :: 'b' :: '"' ::[],
              literal := some (Literal.str ('a' :: '\n' :: 'b' ::[])), line := 2 },
            { type := TokenType.EOF, lexeme := [], literal := none, line := 2 }], []) := by
  intro src s hc hopen
  refine ⟨?_, by decide, by decide⟩
  obtain ⟨tk, st0, cur, ln, er⟩ := s
  dsimp only at hc hopen
  subst hc
  constructor
  · have heq := string_closed src ⟨tk, st0, st0 + 1, ln, er⟩ hopen
    rw [heq]
    unfold add_token
    dsimp only
    rw [St.mk.injEq]
    refine ⟨?_, rfl, rfl, rfl, rfl⟩
    rw [show st0 + 1 + (runFrom src (fun c => c != '"') (st0 + 1)).length + 1 - st0
        = (runFrom src (fun c => c != '"') (st0 + 1)).length + 2 from by omega,
      show st0 + 1 + (runFrom src (fun c => c != '"') (st0 + 1)).length - (st0 + 1)
        = (runFrom src (fun c => c != '"') (st0 + 1)).length from by omega,
      runFrom_take]
  · rw [show st0 + 1 + (runFrom src (fun c => c != '"') (st0 + 1)).length - (st0 + 1)
        = (runFrom src (fun c => c != '"') (st0 + 1)).length from by omega]
    exact (runFrom_take src _ (st0 + 1)).symm

theorem string_literal_spec_witness :
    ((Scanner.string ('"' :: 'a' :: '"' ::[]) ⟨[], 0, 1, 1, []⟩
        = {(⟨[], 0, 1, 1, []⟩ : St) with
            current := 1 + (runFrom ('"' :: 'a' :: '"' ::[]) (fun c => c != '"') 1).length + 1,
            line := 1 + (runFrom ('"' :: 'a' :: '"' ::[]) (fun c => c != '"') 1).count '\n',
            tokens := ([] : List Token) ++
              [{ type := TokenType.STRING,
                 lexeme := (('"' :: 'a' :: '"' ::[] : List Char).drop 0).take
                   ((runFrom ('"' :: 'a' :: '"' ::[]) (fun c => c != '"') 1).length + 2),
                 literal := some (Literal.str (runFrom ('"' :: 'a' :: '"' ::[]) (fun c => c != '"') 1)),
                 line := 1 + (runFrom ('"' :: 'a' :: '"' ::[]) (fun c => c != '"') 1).count '\n' }]}
      ∧ runFrom ('"' :: 'a' :: '"' ::[]) (fun c => c != '"') 1
          = (('"' :: 'a' :: '"' ::[] : List Char).drop (0 + 1)).take
              (1 + (runFrom ('"' :: 'a' :: '"' ::[]) (fun c => c != '"') 1).length - (0 + 1)))
    ∧ scan_tokens ('"' :: 'a' :: '\\' :: '"' ::[])
        = ([{ type := TokenType.STRING, lexeme := '"' :: 'a' :: '\\' :: '"' ::[],
              literal := some (Literal.str ('a' :: '\\' ::[])), line := 1 },
            { type := TokenType.EOF, lexeme := [], literal := none, line := 1 }], [])
    ∧ scan_tokens ('"' :: 'a' :: '\n' :: 'b' :: '"' ::[])
        = ([{ type := TokenType.STRING, lexeme := '"' :: 'a' :: '\n' :: 'b' :: '"' ::[],
              literal := some (Literal.str ('a' :: '\n' :: 'b' ::[])), line := 2 },
            { type := TokenType.EOF, lexeme := [], literal := none, line := 2 }], [])) :=
  string_literal_spec ('"' :: 'a' :: '"' ::[]) ⟨[], 0, 1, 1, []⟩ (by decide) (by decide)

/-- C8: `identifier` (entered with the first character, a letter or
underscore, already consumed) consumes the maximal run of ASCII letters,
digits and underscores from the lexeme start and emits the reserved-word
token kind when the lexeme is in the table, else IDENTIFIER with no
literal; `"if"` gives IF while `"iffy"` and `"foo_1"` give IDENTIFIER. -/
theorem identifier_scanning_spec : ∀ (src : List Char) (s : St),
    s.current = s.start + 1 →
    is_alpha_numeric (src.getD s.start '\x00') = true →
    identifier src s
      = {s with current := s.start + (runFrom src is_alpha_numeric s.start).length,
                tokens := s.tokens ++
                  [{ type := identifier_type (runFrom src is_alpha_numeric s.start),
                     lexeme := runFrom src is_alpha_numeric s.start,
                     literal := none, line := s.line }]}
    ∧ scan "if"
        = ([{ type := TokenType.IF, lexeme := 'i' :: 'f' ::[], literal := none, line := 1 },
            { type := TokenType.EOF, lexeme := [], literal := none, line := 1 }], [])
    ∧ scan "iffy"
        = ([{ type := TokenType.IDENTIFIER, lexeme := 'i' :: 'f' :: 'f' :: 'y' ::[],
              literal := none, line := 1 },
            { type := TokenType.EOF, lexeme := [], literal := none, line := 1 }], [])
    ∧ scan "foo_1"
        = ([{ type := TokenType.IDENTIFIER, lexeme := 'f' :: 'o' :: 'o' :: '_' :: '1' ::[],
              literal := none, line := 1 },
            { type := TokenType.EOF, lexeme := [], literal := none, line := 1 }], []) := by
  intro src s hc ha
  refine ⟨?_, by decide, by decide, by decide⟩
  obtain ⟨tk, st0, cur, ln, er⟩ := s
  dsimp only at hc ha
  subst hc
  exact (identifier_run src tk st0 ln er ha).1

theorem identifier_scanning_spec_witness :
    (identifier ('i' :: 'f' ::[]) ⟨[], 0, 1, 1, []⟩
      = {(⟨[], 0, 1, 1, []⟩ : St) with
          current := 0 + (runFrom ('i' :: 'f' ::[]) is_alpha_numeric 0).length,
          tokens := ([] : List Token) ++
            [{ type := identifier_type (runFrom ('i' :: 'f' ::[]) is_alpha_numeric 0),
               lexeme := runFrom ('i' :: 'f' ::[]) is_alpha_numeric 0,
               literal := none, line := 1 }]}
    ∧ scan "if"
        = ([{ type := TokenType.IF, lexeme := 'i' :: 'f' ::[], literal := none, line := 1 },
            { type := TokenType.EOF, lexeme := [], literal := none, line := 1 }], [])
    ∧ scan "iffy"
        = ([{ type := TokenType.IDENTIFIER, lexeme := 'i' :: 'f' :: 'f' :: 'y' ::[],
              literal := none, line := 1 },
            { type := TokenType.EOF, lexeme := [], literal := none, line := 1 }], [])
    ∧ scan "foo_1"
        = ([{ type := TokenType.IDENTIFIER, lexeme := 'f' :: 'o' :: 'o' :: '_' :: '1' ::[],
              literal := none, line := 1 },
            { type := TokenType.EOF, lexeme := [], literal := none, line := 1 }], [])) :=
  identifier_scanning_spec ('i' :: 'f' ::[]) ⟨[], 0, 1, 1, []⟩ (by decide) (by decide)

/-- C10: reserved-word lookup is case-sensitive — a lexeme resolves to a
keyword kind only when it equals, character for character, one of the
sixteen all-lowercase table keys — so `"IF"`, `"If"` and `"True"` scan to
IDENTIFIER tokens. -/
theorem reserved_word_case_sensitive : ∀ text : List Char,
    (identifier_type text ≠ TokenType.IDENTIFIER → text ∈ reserved_words)
    ∧ reserved_words.length = 16
    ∧ (∀ w ∈ reserved_words, ∀ c ∈ w, 'a' ≤ c ∧ c ≤ 'z')
    ∧ scan "IF"
        = ([{ type := TokenType.IDENTIFIER, lexeme := 'I' :: 'F' ::[], literal := none, line := 1 },
            { type := TokenType.EOF, lexeme := [], literal := none, line := 1 }], [])
    ∧ scan "If"
        = ([{ type := TokenType.IDENTIFIER, lexeme := 'I' :: 'f' ::[], literal := none, line := 1 },
            { type := TokenType.EOF, lexeme := [], literal := none, line := 1 }], [])
    ∧ scan "True"
        = ([{ type := TokenType.IDENTIFIER, lexeme := 'T' :: 'r' :: 'u' :: 'e' ::[],
              literal := none, line := 1 },
            { type := TokenType.EOF, lexeme := [], literal := none, line := 1 }], []) :=
  fun text => ⟨(identifier_type_classify text).2, by decide, by decide, by decide,
    by decide, by decide⟩

theorem reserved_word_case_sensitive_witness :
    ("and".toList ∈ reserved_words)
    ∧ scan "True"
        = ([{ type := TokenType.IDENTIFIER, lexeme := 'T' :: 'r' :: 'u' :: 'e' ::[],
              literal := none, line := 1 },
            { type := TokenType.EOF, lexeme := [], literal := none, line := 1 }], []) :=
  ⟨(reserved_word_case_sensitive "and".toList).1 (by decide),
   (reserved_word_case_sensitive "and".toList).2.2.2.2.2⟩

end Scanner
